import Mathlib

/-!
# LazyJumper: the map compositor of `src/main.cpp`

A shallow embedding of the load phase (tile texture map, image layers, map
objects) and of the drawing part of one frame (`BeginMode2D(camera)`, the
three drawing passes, `EndMode2D()`) of `main`, followed by theorems about them.

Modelling conventions.

* `float` values are exact rationals (`ℚ`); rounding is not modelled.
* `int`, `size_t` and `uint32_t` values are mathematical integers/naturals:
  every integer quantity is assumed to stay inside the range of its C++ type
  and of every type it is converted to.  Sizes (`layerWidth`, `chunkWidth`),
  which the source converts to `size_t` for index arithmetic, are naturals.
* An integer division or remainder by zero is undefined behaviour in the
  source; the model returns `none` for a frame that performs one.
* A drawing pass is modelled in three steps.  `renderImageLayer`,
  `renderTileLayer`, `renderObjects` and `drawFrame` give the calls to the
  raylib drawing primitives with the values of their `float` argument
  expressions.  `DrawCommand.passed` is the call boundary: `DrawTexture` and
  `DrawText` take `int posX, int posY`, so the C++ conversion truncates these
  arguments toward zero.  `DrawCommand.onScreen` is the 2D camera mode of
  `BeginMode2D(camera)`: with the rotation 0 and zoom 1 of `main` a point `p`
  of a call appears at `p - target + offset`.  `screenFrame` is a frame after
  all three steps.
* The parser (tileson) and the image loader are external: a parsed map is a
  value of `Map`, and the loader is a parameter `loadTexture`.
-/

set_option autoImplicit false

namespace LazyJumper

/-! ## Data model -/

/-- The raylib `Vector2` (also used for `tson::Vector2f`). -/
structure Vector2 where
  x : ℚ
  y : ℚ
deriving DecidableEq

/-- The raylib `Rectangle`. -/
structure Rectangle where
  x : ℚ
  y : ℚ
  width : ℚ
  height : ℚ
deriving DecidableEq

/-- The raylib `Color`. -/
structure Color where
  r : Nat
  g : Nat
  b : Nat
  a : Nat
deriving DecidableEq

def RED : Color := ⟨230, 41, 55, 255⟩

def WHITE : Color := ⟨255, 255, 255, 255⟩

/-- The raylib `Texture2D` handle; only the fields `main` can observe.  A failed
load yields the all-zero texture. -/
structure Texture2D where
  id : Nat
  width : Int
  height : Int
deriving DecidableEq

/-- The fields of the raylib `Camera2D` that change or are read in the frame loop:
`cameraX, cameraY` are `target`, `cameraOffsetX, cameraOffsetY` are `offset`.  The
fields `rotation = 0` and `zoom = 1` (lines 155-156) are never changed. -/
structure Camera2D where
  offset : Vector2
  target : Vector2
deriving DecidableEq

/-- One call of a raylib drawing primitive, with the values of its arguments.  The
positions are rationals: a call built by the drawing passes carries the values of
the `float` argument expressions, `DrawCommand.passed` those received by raylib. -/
inductive DrawCommand where
  | DrawTexture (texture : Texture2D) (posX posY : ℚ) (tint : Color)
  | DrawRectangleRec (rec : Rectangle) (color : Color)
  | DrawRectangleLinesEx (rec : Rectangle) (lineThick : ℚ) (color : Color)
  | DrawText (text : String) (posX posY : ℚ) (fontSize : Int) (color : Color)
deriving DecidableEq

/-- The struct `MapObject` of `main.cpp`. -/
structure MapObject where
  name : String
  type : String
  rect : Rectangle
  color : Color
deriving DecidableEq

/-- The local struct `ImageLayerInfo` of `main`. -/
structure ImageLayerInfo where
  texture : Texture2D
  offset : Vector2
  parallaxFactor : Vector2
  repeatX : Bool
deriving DecidableEq

/-- A `tson::Vector2i`. -/
structure Vector2i where
  x : Int
  y : Int
deriving DecidableEq

/-- A size in tiles (`getSize()` of a layer or chunk). -/
structure Size where
  x : Nat
  y : Nat
deriving DecidableEq

/-- A `tson::Tile`: `getId()` and `getImage()`. -/
structure Tile where
  id : Int
  image : String
deriving DecidableEq

/-- A `tson::Tileset`: `getFirstgid()` and `getTiles()`. -/
structure Tileset where
  firstgid : Int
  tiles : List Tile
deriving DecidableEq

/-- A `tson::Chunk`: `getData()`, `getSize()`, `getPosition()`. -/
structure Chunk where
  data : List Nat
  size : Size
  position : Vector2i
deriving DecidableEq

/-- A `tson::Object`: `getName()`, `getType()`, `getPosition()`, `getSize()`. -/
structure Object where
  name : String
  type : String
  position : Vector2i
  size : Vector2i
deriving DecidableEq

inductive LayerType where
  | TileLayer
  | ObjectGroup
  | ImageLayer
  | Group
  | Undefined
deriving DecidableEq

/-- A `tson::Layer`, one polymorphic record read through its getters. -/
structure Layer where
  type : LayerType
  name : String
  image : String
  offset : Vector2
  parallax : Vector2
  repeatX : Bool
  chunks : List Chunk
  data : List Nat
  size : Size
  objects : List Object
deriving DecidableEq

/-- A `tson::Map`: `getTileSize()`, `getTilesets()`, `getLayers()`. -/
structure Map where
  tileSize : Vector2i
  tilesets : List Tileset
  layers : List Layer
deriving DecidableEq

/-- The `std::unordered_map<int, Texture2D> tileTextures`. -/
abbrev TextureMap := Int → Option Texture2D

/-- The assignment `tileTextures[key] = texture`. -/
def TextureMap.set (m : TextureMap) (key : Int) (texture : Texture2D) : TextureMap :=
  fun k => if k = key then some texture else m k

def TextureMap.empty : TextureMap := fun _ => none

/-! ## Load phase -/

/-- The inner loop of lines 50-56: the tiles of one tileset. -/
def loadTilesetTiles (loadTexture : String → Texture2D) (firstgid : Int) :
    List Tile → TextureMap → TextureMap
  | [], tileTextures => tileTextures
  | tile :: rest, tileTextures =>
      let imagePath := "tiled_project/" ++ tile.image
      let texture := loadTexture imagePath
      loadTilesetTiles loadTexture firstgid rest
        (tileTextures.set (tile.id + firstgid - 1) texture)

/-- The outer loop of lines 49-57. -/
def loadTilesets (loadTexture : String → Texture2D) :
    List Tileset → TextureMap → TextureMap
  | [], tileTextures => tileTextures
  | tileset :: rest, tileTextures =>
      loadTilesets loadTexture rest
        (loadTilesetTiles loadTexture tileset.firstgid tileset.tiles tileTextures)

/-- The map `tileTextures` after lines 45-57. -/
def loadTileTextures (loadTexture : String → Texture2D) (map : Map) : TextureMap :=
  loadTilesets loadTexture map.tilesets TextureMap.empty

/-- Lines 72-77: a leading `../` is removed from the image path. -/
def fixImagePath (imagePath : String) : String :=
  if imagePath.take 3 = "../" then imagePath.drop 3 else imagePath

/-- Lines 69-100: the vector `imageLayers`. -/
def loadImageLayers (loadTexture : String → Texture2D) : List Layer → List ImageLayerInfo
  | [] => []
  | layer :: rest =>
      if layer.type = LayerType.ImageLayer then
        { texture := loadTexture (fixImagePath layer.image)
          offset := ⟨layer.offset.x, layer.offset.y⟩
          parallaxFactor := ⟨layer.parallax.x, layer.parallax.y⟩
          repeatX := layer.repeatX } :: loadImageLayers loadTexture rest
      else loadImageLayers loadTexture rest

/-- Lines 129-139: one object of an object layer. -/
def toMapObject (layerColor : Color) (object : Object) : MapObject :=
  { name := object.name
    type := object.type
    rect := ⟨object.position.x, object.position.y, object.size.x, object.size.y⟩
    color := layerColor }

/-- Lines 103-147: the vector `mapObjects`. -/
def loadMapObjects : List Layer → List MapObject
  | [] => []
  | layer :: rest =>
      if layer.type = LayerType.ObjectGroup then
        let layerColor := RED
        layer.objects.map (toMapObject layerColor) ++ loadMapObjects rest
      else loadMapObjects rest

/-! ## One frame -/

/-- Sequencing of two drawing passes, either of which may hit undefined behaviour. -/
def andThen (a b : Option (List DrawCommand)) : Option (List DrawCommand) :=
  match a, b with
  | some x, some y => some (x ++ y)
  | _, _ => none

/-- The loop of lines 197-204, with `n` iterations left and loop variable `i`; the
positions are the `float` argument expressions `offsetX + (i * textureWidth)` and
`offsetY` (their conversion to `int posX, int posY` is `DrawCommand.passed`). -/
def drawRepetitions (texture : Texture2D) (offsetX offsetY : ℚ) (textureWidth : Int) :
    Nat → Int → List DrawCommand
  | 0, _ => []
  | n + 1, i =>
      DrawCommand.DrawTexture texture (offsetX + ((i * textureWidth : Int) : ℚ)) offsetY WHITE
        :: drawRepetitions texture offsetX offsetY textureWidth n (i + 1)

/-- Lines 185-213: one image layer, with the `float` argument expressions of its calls. -/
def renderImageLayer (screenWidth : Int) (camera : Camera2D) (imageLayer : ImageLayerInfo) :
    Option (List DrawCommand) :=
  let parallaxX := camera.target.x * (1 - imageLayer.parallaxFactor.x)
  let parallaxY := camera.target.y * (1 - imageLayer.parallaxFactor.y)
  let offsetX := imageLayer.offset.x + parallaxX - camera.offset.x
  let offsetY := imageLayer.offset.y + parallaxY - camera.offset.y
  if imageLayer.repeatX then
    let textureWidth := imageLayer.texture.width
    if textureWidth = 0 then none
    else
      let repetitions := Int.tdiv screenWidth textureWidth + 2
      some (drawRepetitions imageLayer.texture offsetX offsetY textureWidth
        (repetitions - (-1)).toNat (-1))
  else
    some [DrawCommand.DrawTexture imageLayer.texture offsetX offsetY WHITE]

/-- Lines 184-214: the image layer pass. -/
def renderImageLayers (screenWidth : Int) (camera : Camera2D) :
    List ImageLayerInfo → Option (List DrawCommand)
  | [] => some []
  | imageLayer :: rest =>
      andThen (renderImageLayer screenWidth camera imageLayer)
        (renderImageLayers screenWidth camera rest)

/-- Lines 254-256 and 273-275: draw the tile if its texture exists; `x` and `y` are the
`float` arguments of the call. -/
def drawTile (tileTextures : TextureMap) (tileId : Nat) (x y : ℚ) : List DrawCommand :=
  match tileTextures (tileId : Int) with
  | some texture => [DrawCommand.DrawTexture texture x y WHITE]
  | none => []

/-- The loop of lines 264-276 over the rest of `tileData`, from index `i`. -/
def drawLayerData (tileTextures : TextureMap) (tileWidth tileHeight : Int)
    (layerOffset cameraOffset : Vector2) (layerWidth : Nat) :
    Nat → List Nat → Option (List DrawCommand)
  | _, [] => some []
  | i, tileId :: rest =>
      if tileId = 0 then
        drawLayerData tileTextures tileWidth tileHeight layerOffset cameraOffset layerWidth
          (i + 1) rest
      else if layerWidth = 0 then none
      else
        let x : ℚ := (((i % layerWidth : Nat) * tileWidth : Int) : ℚ)
          + layerOffset.x - cameraOffset.x
        let y : ℚ := (((i / layerWidth : Nat) * tileHeight : Int) : ℚ)
          + layerOffset.y - cameraOffset.y
        andThen (some (drawTile tileTextures tileId x y))
          (drawLayerData tileTextures tileWidth tileHeight layerOffset cameraOffset layerWidth
            (i + 1) rest)

/-- The loop of lines 241-257 over the rest of `chunkData`, from index `i`. -/
def drawChunkData (tileTextures : TextureMap) (tileWidth tileHeight : Int)
    (layerOffset cameraOffset : Vector2) (chunkWidth : Nat) (chunkX chunkY : Int) :
    Nat → List Nat → Option (List DrawCommand)
  | _, [] => some []
  | i, tileId :: rest =>
      if tileId = 0 then
        drawChunkData tileTextures tileWidth tileHeight layerOffset cameraOffset chunkWidth
          chunkX chunkY (i + 1) rest
      else if chunkWidth = 0 then none
      else
        let xInChunk : Int := ((i % chunkWidth : Nat) : Int)
        let yInChunk : Int := ((i / chunkWidth : Nat) : Int)
        let x : ℚ := (((chunkX + xInChunk) * tileWidth : Int) : ℚ)
          + layerOffset.x - cameraOffset.x
        let y : ℚ := (((chunkY + yInChunk) * tileHeight : Int) : ℚ)
          + layerOffset.y - cameraOffset.y
        andThen (some (drawTile tileTextures tileId x y))
          (drawChunkData tileTextures tileWidth tileHeight layerOffset cameraOffset chunkWidth
            chunkX chunkY (i + 1) rest)

/-- The loop of lines 234-258 over the chunks of a layer. -/
def drawChunks (tileTextures : TextureMap) (tileWidth tileHeight : Int)
    (layerOffset cameraOffset : Vector2) : List Chunk → Option (List DrawCommand)
  | [] => some []
  | chunk :: rest =>
      andThen
        (drawChunkData tileTextures tileWidth tileHeight layerOffset cameraOffset
          chunk.size.x chunk.position.x chunk.position.y 0 chunk.data)
        (drawChunks tileTextures tileWidth tileHeight layerOffset cameraOffset rest)

/-- Lines 219-277: one tile layer. -/
def renderTileLayer (tileTextures : TextureMap) (tileWidth tileHeight : Int)
    (camera : Camera2D) (layer : Layer) : Option (List DrawCommand) :=
  let parallaxX := camera.target.x * (1 - layer.parallax.x)
  let parallaxY := camera.target.y * (1 - layer.parallax.y)
  let layerOffset : Vector2 := ⟨layer.offset.x + parallaxX, layer.offset.y + parallaxY⟩
  if layer.chunks ≠ [] then
    drawChunks tileTextures tileWidth tileHeight layerOffset camera.offset layer.chunks
  else
    drawLayerData tileTextures tileWidth tileHeight layerOffset camera.offset layer.size.x
      0 layer.data

/-- Lines 217-279: the tile layer pass. -/
def renderTileLayers (tileTextures : TextureMap) (tileWidth tileHeight : Int)
    (camera : Camera2D) : List Layer → Option (List DrawCommand)
  | [] => some []
  | layer :: rest =>
      if layer.type = LayerType.TileLayer then
        andThen (renderTileLayer tileTextures tileWidth tileHeight camera layer)
          (renderTileLayers tileTextures tileWidth tileHeight camera rest)
      else renderTileLayers tileTextures tileWidth tileHeight camera rest

/-- Lines 283-301: one map object, with the `float` argument expressions of its calls. -/
def renderObject (cameraOffset : Vector2) (object : MapObject) : List DrawCommand :=
  let drawRect : Rectangle :=
    ⟨object.rect.x - cameraOffset.x, object.rect.y - cameraOffset.y,
      object.rect.width, object.rect.height⟩
  let fillColor : Color := { object.color with a := 100 }
  [DrawCommand.DrawRectangleRec drawRect fillColor,
   DrawCommand.DrawRectangleLinesEx drawRect 2 object.color,
   DrawCommand.DrawText object.name (drawRect.x + 5) (drawRect.y + 5) 20 WHITE]

/-- Lines 282-302: the object pass. -/
def renderObjects (cameraOffset : Vector2) : List MapObject → List DrawCommand
  | [] => []
  | object :: rest => renderObject cameraOffset object ++ renderObjects cameraOffset rest

/-- Lines 183-302: the draw calls issued by one frame between `BeginMode2D(camera)` and
`EndMode2D()`, from the state set up by the load phase, with the `float` argument
expressions of the calls (`screenFrame` is what they put on screen). -/
def drawFrame (screenWidth tileWidth tileHeight : Int) (tileTextures : TextureMap)
    (imageLayers : List ImageLayerInfo) (layers : List Layer) (mapObjects : List MapObject)
    (camera : Camera2D) : Option (List DrawCommand) :=
  andThen (renderImageLayers screenWidth camera imageLayers)
    (andThen (renderTileLayers tileTextures tileWidth tileHeight camera layers)
      (some (renderObjects camera.offset mapObjects)))

/-- The load phase followed by one frame at the given camera. -/
def composeFrame (loadTexture : String → Texture2D) (screenWidth : Int) (map : Map)
    (camera : Camera2D) : Option (List DrawCommand) :=
  drawFrame screenWidth map.tileSize.x map.tileSize.y (loadTileTextures loadTexture map)
    (loadImageLayers loadTexture map.layers) map.layers (loadMapObjects map.layers) camera

/-- The window width of `main` (line 20). -/
def screenWidth : Int := 1440

/-- The window height of `main` (line 21). -/
def screenHeight : Int := 960

/-- The camera of `main` (lines 150-156) once its target has been moved to `target`. -/
def mainCamera (target : Vector2) : Camera2D :=
  { offset := ⟨(screenWidth : ℚ) / 2, (screenHeight : ℚ) / 2⟩, target := target }

/-- The C++ conversion of a `float` to `int`: truncation toward zero. -/
def truncToInt (x : ℚ) : Int := if 0 ≤ x then ⌊x⌋ else ⌈x⌉

/-- The call as raylib receives it: `DrawTexture(Texture2D, int posX, int posY, Color)`
and `DrawText(const char*, int posX, int posY, int fontSize, Color)` take integer
positions, so the `float` arguments of lines 198-203, 207-212, 255, 274 and 298-301
are converted to `int`; `DrawRectangleRec` and `DrawRectangleLinesEx` take the
`float` rectangle. -/
def DrawCommand.passed : DrawCommand → DrawCommand
  | .DrawTexture texture posX posY tint =>
      .DrawTexture texture (truncToInt posX) (truncToInt posY) tint
  | .DrawRectangleRec rec color => .DrawRectangleRec rec color
  | .DrawRectangleLinesEx rec lineThick color => .DrawRectangleLinesEx rec lineThick color
  | .DrawText text posX posY fontSize color =>
      .DrawText text (truncToInt posX) (truncToInt posY) fontSize color

/-- Line 181, `BeginMode2D(camera)`: raylib draws every call made inside the 2D mode
through the camera transform.  For the camera of lines 152-156 (rotation 0, zoom 1,
never changed) a point `p` of a call appears on screen at `p - target + offset`,
and sizes are unchanged. -/
def DrawCommand.onScreen (camera : Camera2D) : DrawCommand → DrawCommand
  | .DrawTexture texture posX posY tint =>
      .DrawTexture texture (posX - camera.target.x + camera.offset.x)
        (posY - camera.target.y + camera.offset.y) tint
  | .DrawRectangleRec rec color =>
      .DrawRectangleRec
        ⟨rec.x - camera.target.x + camera.offset.x, rec.y - camera.target.y + camera.offset.y,
          rec.width, rec.height⟩ color
  | .DrawRectangleLinesEx rec lineThick color =>
      .DrawRectangleLinesEx
        ⟨rec.x - camera.target.x + camera.offset.x, rec.y - camera.target.y + camera.offset.y,
          rec.width, rec.height⟩ lineThick color
  | .DrawText text posX posY fontSize color =>
      .DrawText text (posX - camera.target.x + camera.offset.x)
        (posY - camera.target.y + camera.offset.y) fontSize color

/-- What the calls of a drawing pass put on screen: each call as raylib receives it,
seen through the camera installed by `BeginMode2D(camera)`. -/
def screenCalls (camera : Camera2D) (r : Option (List DrawCommand)) :
    Option (List DrawCommand) :=
  r.map (List.map fun cmd => cmd.passed.onScreen camera)

/-- Lines 181-304: what one frame puts on screen between `BeginMode2D(camera)` and
`EndMode2D()`. -/
def screenFrame (loadTexture : String → Texture2D) (screenWidth : Int) (map : Map)
    (camera : Camera2D) : Option (List DrawCommand) :=
  screenCalls camera (composeFrame loadTexture screenWidth map camera)

/-! ## Specification-side definitions -/

/-- The spec formula `screenOffset = layer.offset + T * (1 - layer.parallaxFactor) - O`. -/
def screenOffset (offset parallaxFactor T O : Vector2) : Vector2 :=
  ⟨offset.x + T.x * (1 - parallaxFactor.x) - O.x, offset.y + T.y * (1 - parallaxFactor.y) - O.y⟩

/-- A draw command moved by `d`. -/
def DrawCommand.translate (d : Vector2) : DrawCommand → DrawCommand
  | .DrawTexture texture posX posY tint => .DrawTexture texture (posX + d.x) (posY + d.y) tint
  | .DrawRectangleRec rec color =>
      .DrawRectangleRec ⟨rec.x + d.x, rec.y + d.y, rec.width, rec.height⟩ color
  | .DrawRectangleLinesEx rec lineThick color =>
      .DrawRectangleLinesEx ⟨rec.x + d.x, rec.y + d.y, rec.width, rec.height⟩ lineThick color
  | .DrawText text posX posY fontSize color =>
      .DrawText text (posX + d.x) (posY + d.y) fontSize color

/-- The outcome of a drawing pass with every draw position moved by `d`. -/
def translateAll (d : Vector2) (r : Option (List DrawCommand)) : Option (List DrawCommand) :=
  r.map (List.map (DrawCommand.translate d))

/-- The camera at the origin with no screen-centre offset. -/
def originCamera : Camera2D := { offset := ⟨0, 0⟩, target := ⟨0, 0⟩ }

/-- The `ImageLayerInfo` that lines 72-98 build for an image layer. -/
def imageLayerInfo (loadTexture : String → Texture2D) (layer : Layer) : ImageLayerInfo :=
  { texture := loadTexture (fixImagePath layer.image)
    offset := ⟨layer.offset.x, layer.offset.y⟩
    parallaxFactor := ⟨layer.parallax.x, layer.parallax.y⟩
    repeatX := layer.repeatX }

/-- Whether the layer is an image layer. -/
def Layer.isImage (layer : Layer) : Bool := decide (layer.type = LayerType.ImageLayer)

/-- Spec 4.4, the draw commands of the layers in true document order: each image
layer and each tile layer is drawn at its place in the declaration order. -/
def documentOrderLayers (loadTexture : String → Texture2D) (screenWidth tileWidth tileHeight : Int)
    (tileTextures : TextureMap) (camera : Camera2D) : List Layer → Option (List DrawCommand)
  | [] => some []
  | layer :: rest =>
      andThen
        (match layer.type with
          | LayerType.ImageLayer =>
              renderImageLayer screenWidth camera (imageLayerInfo loadTexture layer)
          | LayerType.TileLayer =>
              renderTileLayer tileTextures tileWidth tileHeight camera layer
          | _ => some [])
        (documentOrderLayers loadTexture screenWidth tileWidth tileHeight tileTextures camera rest)

/-- Spec 4.4, a frame in true document order: the layers as declared, then the map objects. -/
def documentOrderFrame (loadTexture : String → Texture2D) (screenWidth : Int) (map : Map)
    (camera : Camera2D) : Option (List DrawCommand) :=
  andThen
    (documentOrderLayers loadTexture screenWidth map.tileSize.x map.tileSize.y
      (loadTileTextures loadTexture map) camera map.layers)
    (some (renderObjects camera.offset (loadMapObjects map.layers)))

/-- The layers of a map with its image layers moved to the front, the order being
kept among the image layers and among the other layers. -/
def imageLayersFirst (layers : List Layer) : List Layer :=
  layers.filter Layer.isImage ++ layers.filter (fun layer => !layer.isImage)

/-- The objects of the object layers, in declaration order. -/
def declaredObjects : List Layer → List Object
  | [] => []
  | layer :: rest =>
      if layer.type = LayerType.ObjectGroup then layer.objects ++ declaredObjects rest
      else declaredObjects rest

/-- The three draw commands of one declared object, for screen-centre offset `O`. -/
def objectCommands (O : Vector2) (object : Object) : List DrawCommand :=
  [DrawCommand.DrawRectangleRec
     ⟨object.position.x - O.x, object.position.y - O.y, object.size.x, object.size.y⟩
     { RED with a := 100 },
   DrawCommand.DrawRectangleLinesEx
     ⟨object.position.x - O.x, object.position.y - O.y, object.size.x, object.size.y⟩ 2 RED,
   DrawCommand.DrawText object.name (object.position.x - O.x + 5) (object.position.y - O.y + 5)
     20 WHITE]

/-- The tile textures in registration order, each with the key it is stored under. -/
def atlasEntries (loadTexture : String → Texture2D) (tilesets : List Tileset) :
    List (Int × Texture2D) :=
  tilesets.flatMap fun tileset =>
    tileset.tiles.map fun tile =>
      (tile.id + tileset.firstgid - 1, loadTexture ("tiled_project/" ++ tile.image))

/-- The tiles of the tileset carry the local ids 1..tileCount. -/
def Tileset.LocalIdsOk (tileset : Tileset) : Prop :=
  (tileset.tiles.map Tile.id).Perm
    ((List.range tileset.tiles.length).map fun (k : Nat) => (k : Int) + 1)

/-- The global id ranges of two tilesets do not overlap. -/
def Tileset.RangesDisjoint (a b : Tileset) : Prop :=
  a.firstgid + a.tiles.length ≤ b.firstgid ∨ b.firstgid + b.tiles.length ≤ a.firstgid

instance Tileset.decidableLocalIdsOk (tileset : Tileset) : Decidable tileset.LocalIdsOk := by
  unfold Tileset.LocalIdsOk; infer_instance

instance Tileset.decidableRangesDisjoint (a b : Tileset) : Decidable (a.RangesDisjoint b) := by
  unfold Tileset.RangesDisjoint; infer_instance

/-- The texture draw of the tile at world tile coordinate `(tx, ty)`. -/
def blitAt (tileWidth tileHeight : Int) (so : Vector2) (texture : Texture2D) (tx ty : Int) :
    DrawCommand :=
  DrawCommand.DrawTexture texture (((tx * tileWidth : Int) : ℚ) + so.x)
    (((ty * tileHeight : Int) : ℚ) + so.y) WHITE

/-- Spec 4.2.1/4.2.2, one entry of a tile array of stride `w` whose first tile is at
world tile coordinate `(originX, originY)`: id 0 is skipped, an id absent from the
atlas is skipped, any other id gives one texture draw at grid coordinate
`(i mod w, i div w)` from the origin. -/
def entryBlit (tileTextures : TextureMap) (tileWidth tileHeight : Int) (so : Vector2)
    (originX originY : Int) (w : Nat) (i tileId : Nat) : Option DrawCommand :=
  if tileId = 0 then none
  else (tileTextures (tileId : Int)).map fun texture =>
    blitAt tileWidth tileHeight so texture (originX + ((i % w : Nat) : Int))
      (originY + ((i / w : Nat) : Int))

/-- The draws of one tile array, in array order. -/
def tileDataBlits (tileTextures : TextureMap) (tileWidth tileHeight : Int) (so : Vector2)
    (originX originY : Int) (w : Nat) (data : List Nat) : List DrawCommand :=
  data.enum.filterMap fun e => entryBlit tileTextures tileWidth tileHeight so originX originY w e.1 e.2

/-- The draws of a tile layer: chunk after chunk when it carries chunks, else its flat array. -/
def tileLayerBlits (tileTextures : TextureMap) (tileWidth tileHeight : Int) (so : Vector2)
    (layer : Layer) : List DrawCommand :=
  if layer.chunks ≠ [] then
    layer.chunks.flatMap fun chunk =>
      tileDataBlits tileTextures tileWidth tileHeight so chunk.position.x chunk.position.y
        chunk.size.x chunk.data
  else tileDataBlits tileTextures tileWidth tileHeight so 0 0 layer.size.x layer.data

/-- The data-model shape of a chunk: its array has `width * height` entries. -/
def Chunk.WellShaped (chunk : Chunk) : Prop :=
  chunk.data.length = chunk.size.x * chunk.size.y

instance Chunk.decidableWellShaped (chunk : Chunk) : Decidable chunk.WellShaped := by
  unfold Chunk.WellShaped; infer_instance

/-- The tile array holds a non-zero id. -/
def holdsTile (data : List Nat) : Prop := ∃ tileId ∈ data, tileId ≠ 0

instance decidableHoldsTile (data : List Nat) : Decidable (holdsTile data) := by
  unfold holdsTile; infer_instance

/-- Every tile array of the layer that holds a non-zero id has a non-zero declared
width, so that the grid coordinate `(i mod width, i div width)` of each drawn entry
is defined. -/
def Layer.Drawable (layer : Layer) : Prop :=
  if layer.chunks ≠ [] then ∀ chunk ∈ layer.chunks, holdsTile chunk.data → chunk.size.x ≠ 0
  else holdsTile layer.data → layer.size.x ≠ 0

instance Layer.decidableDrawable (layer : Layer) : Decidable layer.Drawable := by
  unfold Layer.Drawable; infer_instance

/-- The ids of the tile arrays of a layer, in drawing order. -/
def Layer.tileEntries (layer : Layer) : List Nat :=
  if layer.chunks ≠ [] then layer.chunks.flatMap Chunk.data else layer.data

/-- The texture of a texture draw. -/
def DrawCommand.textureOf : DrawCommand → Option Texture2D
  | .DrawTexture texture _ _ _ => some texture
  | _ => none

/-- The tile rectangles of two chunks do not overlap. -/
def Chunk.Disjoint (a b : Chunk) : Prop :=
  a.position.x + a.size.x ≤ b.position.x ∨ b.position.x + b.size.x ≤ a.position.x
    ∨ a.position.y + a.size.y ≤ b.position.y ∨ b.position.y + b.size.y ≤ a.position.y

instance Chunk.decidableDisjoint (a b : Chunk) : Decidable (a.Disjoint b) := by
  unfold Chunk.Disjoint; infer_instance

/-- The finite layer holds id `tileId` at world tile coordinate `(tx, ty)`: spec 4.2.1,
index `i` of the flat array is at `(i mod width, i div width)`. -/
def FiniteHolds (layer : Layer) (tileId : Nat) (tx ty : Int) : Prop :=
  ∃ i : Nat, layer.data[i]? = some tileId
    ∧ tx = ((i % layer.size.x : Nat) : Int) ∧ ty = ((i / layer.size.x : Nat) : Int)

/-- The chunked layer holds id `tileId` at world tile coordinate `(tx, ty)`: spec 4.2.2,
index `i` of a chunk is at `chunk.position + (i mod chunkWidth, i div chunkWidth)`. -/
def ChunkedHolds (layer : Layer) (tileId : Nat) (tx ty : Int) : Prop :=
  ∃ chunk ∈ layer.chunks, ∃ i : Nat, chunk.data[i]? = some tileId
    ∧ tx = chunk.position.x + ((i % chunk.size.x : Nat) : Int)
    ∧ ty = chunk.position.y + ((i / chunk.size.x : Nat) : Int)

/-- The drawn entries of a tile array with their id, texture and world tile coordinate. -/
def locatedTiles (tileTextures : TextureMap) (originX originY : Int) (w : Nat)
    (data : List Nat) : List (Nat × Texture2D × Int × Int) :=
  data.enum.filterMap fun e =>
    if e.2 = 0 then none
    else (tileTextures (e.2 : Int)).map fun texture =>
      (e.2, texture, originX + ((e.1 % w : Nat) : Int), originY + ((e.1 / w : Nat) : Int))

/-- The horizontal draw position of a command. -/
def DrawCommand.posX : DrawCommand → ℚ
  | .DrawTexture _ posX _ _ => posX
  | .DrawRectangleRec rec _ => rec.x
  | .DrawRectangleLinesEx rec _ _ => rec.x
  | .DrawText _ posX _ _ _ => posX

/-- The three draws of one declared object as they appear on screen under the camera:
the rectangle at `position - target` with the size of the object, its outline, and
the label, whose integer call position `position - offset + 5` is moved by
`offset - target`. -/
def screenObjectCommands (camera : Camera2D) (object : Object) : List DrawCommand :=
  [DrawCommand.DrawRectangleRec
     ⟨object.position.x - camera.target.x, object.position.y - camera.target.y,
       object.size.x, object.size.y⟩ { RED with a := 100 },
   DrawCommand.DrawRectangleLinesEx
     ⟨object.position.x - camera.target.x, object.position.y - camera.target.y,
       object.size.x, object.size.y⟩ 2 RED,
   DrawCommand.DrawText object.name
     (truncToInt (object.position.x - camera.offset.x + 5) + camera.offset.x - camera.target.x)
     (truncToInt (object.position.y - camera.offset.y + 5) + camera.offset.y - camera.target.y)
     20 WHITE]

/-! ## Concrete inputs -/

/-- A loader used in the concrete scenarios: the handle is the sum of the character
codes of the path. -/
def sampleLoader (path : String) : Texture2D := ⟨(path.toList.map Char.toNat).sum, 16, 16⟩

/-- A layer of the given type with default fields. -/
def plainLayer (type : LayerType) : Layer :=
  { type := type, name := "", image := "", offset := ⟨0, 0⟩, parallax := ⟨1, 1⟩,
    repeatX := false, chunks := [], data := [], size := ⟨0, 0⟩, objects := [] }

/-- The 2×2 finite tile layer `[1,0,2,0]` with 16×16 tiles and one tileset at first gid 1. -/
def scenarioMap : Map :=
  { tileSize := ⟨16, 16⟩
    tilesets := [⟨1, [⟨1, "t1.png"⟩, ⟨2, "t2.png"⟩]⟩]
    layers := [{ plainLayer LayerType.TileLayer with data := [1, 0, 2, 0], size := ⟨2, 2⟩ }] }

/-- A non-repeating image layer with parallax factor (1,1) and offset (0,0). -/
def identityImageLayer : ImageLayerInfo :=
  { texture := ⟨7, 64, 64⟩, offset := ⟨0, 0⟩, parallaxFactor := ⟨1, 1⟩, repeatX := false }

/-- A camera with target (1,0) and screen-centre offset (0,0). -/
def movedCamera : Camera2D := { offset := ⟨0, 0⟩, target := ⟨1, 0⟩ }

/-- A loader for which the image `missing.png` fails to load. -/
def missingLoader (path : String) : Texture2D :=
  if path = "missing.png" then ⟨0, 0, 0⟩ else sampleLoader path

/-- A map with a repeating image layer, whose image is `missing.png`, and a tile layer. -/
def repeatingImageMap : Map :=
  { tileSize := ⟨16, 16⟩
    tilesets := [⟨1, [⟨1, "t1.png"⟩]⟩]
    layers := [{ plainLayer LayerType.ImageLayer with image := "missing.png", repeatX := true },
               { plainLayer LayerType.TileLayer with data := [1], size := ⟨1, 1⟩ }] }

/-- A map with one object layer, offset (3,4) and parallax (1/2,1/2), holding one object. -/
def objectMap : Map :=
  { tileSize := ⟨16, 16⟩
    tilesets := []
    layers := [{ plainLayer LayerType.ObjectGroup with
                  offset := ⟨3, 4⟩, parallax := ⟨1 / 2, 1 / 2⟩,
                  objects := [⟨"spawn", "point", ⟨10, 20⟩, ⟨30, 40⟩⟩] }] }

/-- A map that declares a tile layer before an image layer. -/
def tileBeforeImageMap : Map :=
  { tileSize := ⟨16, 16⟩
    tilesets := [⟨1, [⟨1, "t1.png"⟩]⟩]
    layers := [{ plainLayer LayerType.TileLayer with data := [1], size := ⟨1, 1⟩ },
               { plainLayer LayerType.ImageLayer with image := "sky.png" }] }

/-- Two tilesets: gids 1..2 and 3..5. -/
def twoTilesets : Map :=
  { tileSize := ⟨16, 16⟩
    tilesets := [⟨1, [⟨1, "a.png"⟩, ⟨2, "b.png"⟩]⟩,
                 ⟨3, [⟨2, "d.png"⟩, ⟨1, "c.png"⟩, ⟨3, "e.png"⟩]⟩]
    layers := [] }

/-- A finite tile layer of declared width 0 that holds the id 5. -/
def zeroWidthLayer : Layer :=
  { plainLayer LayerType.TileLayer with data := [5], size := ⟨0, 1⟩ }

/-- A chunked tile layer with three chunks, the last one all-zero and of declared width 0;
id 9 has no texture in `twoTilesets`. -/
def chunkedLayer : Layer :=
  { plainLayer LayerType.TileLayer with
    offset := ⟨3, 4⟩, parallax := ⟨1 / 2, 1⟩
    chunks := [⟨[5, 0, 9, 1], ⟨2, 2⟩, ⟨-1, -1⟩⟩, ⟨[0, 2], ⟨1, 2⟩, ⟨4, 0⟩⟩,
               ⟨[0, 0], ⟨0, 0⟩, ⟨7, 7⟩⟩] }

/-- A finite 3×2 tile layer. -/
def finiteSample : Layer :=
  { plainLayer LayerType.TileLayer with
    offset := ⟨3, 4⟩, parallax := ⟨1 / 2, 1⟩
    data := [1, 0, 2, 0, 3, 0], size := ⟨3, 2⟩ }

/-- A chunked tile layer with the content of `finiteSample` in two chunks. -/
def chunkedSample : Layer :=
  { plainLayer LayerType.TileLayer with
    offset := ⟨3, 4⟩, parallax := ⟨1 / 2, 1⟩
    chunks := [⟨[1], ⟨1, 1⟩, ⟨0, 0⟩⟩, ⟨[0, 2, 3, 0], ⟨2, 2⟩, ⟨1, 0⟩⟩] }

theorem andThen_some (x y : List DrawCommand) : andThen (some x) (some y) = some (x ++ y) := rfl

theorem andThen_nil_left (b : Option (List DrawCommand)) : andThen (some []) b = b := by
  cases b <;> simp [andThen]

theorem andThen_assoc (a b c : Option (List DrawCommand)) :
    andThen (andThen a b) c = andThen a (andThen b c) := by
  cases a <;> cases b <;> cases c <;> simp [andThen]

theorem translateAll_andThen (d : Vector2) (a b : Option (List DrawCommand)) :
    translateAll d (andThen a b) = andThen (translateAll d a) (translateAll d b) := by
  cases a <;> cases b <;> simp [translateAll, andThen]

theorem drawTile_translate (tileTextures : TextureMap) (tileId : Nat) (x y : ℚ) (d : Vector2) :
    drawTile tileTextures tileId (x + d.x) (y + d.y)
      = (drawTile tileTextures tileId x y).map (DrawCommand.translate d) := by
  unfold drawTile
  cases tileTextures (tileId : Int) <;> simp [DrawCommand.translate]

theorem drawRepetitions_translate (texture : Texture2D) (offsetX offsetY : ℚ)
    (textureWidth : Int) (n : Nat) (i : Int) :
    drawRepetitions texture offsetX offsetY textureWidth n i
      = (drawRepetitions texture 0 0 textureWidth n i).map
          (DrawCommand.translate ⟨offsetX, offsetY⟩) := by
  induction n generalizing i with
  | zero => simp [drawRepetitions]
  | succ n ih =>
    simp only [drawRepetitions, List.map_cons, DrawCommand.translate]
    rw [ih (i + 1)]
    simp [add_comm]

theorem drawLayerData_translate (tileTextures : TextureMap) (tileWidth tileHeight : Int)
    (layerOffset cameraOffset : Vector2) (layerWidth : Nat) (i : Nat) (data : List Nat) :
    drawLayerData tileTextures tileWidth tileHeight layerOffset cameraOffset layerWidth i data
      = translateAll ⟨layerOffset.x - cameraOffset.x, layerOffset.y - cameraOffset.y⟩
          (drawLayerData tileTextures tileWidth tileHeight ⟨0, 0⟩ ⟨0, 0⟩ layerWidth i data) := by
  induction data generalizing i with
  | nil => simp [drawLayerData, translateAll]
  | cons tileId rest ih =>
    unfold drawLayerData
    by_cases h0 : tileId = 0
    · simp only [h0, if_true]; exact ih (i + 1)
    · by_cases hw : layerWidth = 0
      · simp [h0, hw, translateAll]
      · simp only [h0, hw, if_false]
        rw [translateAll_andThen, ← ih (i + 1)]
        congr 1
        simp only [translateAll, Option.map_some', ← drawTile_translate]
        congr 2 <;> ring

theorem drawChunkData_translate (tileTextures : TextureMap) (tileWidth tileHeight : Int)
    (layerOffset cameraOffset : Vector2) (chunkWidth : Nat) (chunkX chunkY : Int)
    (i : Nat) (data : List Nat) :
    drawChunkData tileTextures tileWidth tileHeight layerOffset cameraOffset chunkWidth
        chunkX chunkY i data
      = translateAll ⟨layerOffset.x - cameraOffset.x, layerOffset.y - cameraOffset.y⟩
          (drawChunkData tileTextures tileWidth tileHeight ⟨0, 0⟩ ⟨0, 0⟩ chunkWidth
            chunkX chunkY i data) := by
  induction data generalizing i with
  | nil => simp [drawChunkData, translateAll]
  | cons tileId rest ih =>
    unfold drawChunkData
    by_cases h0 : tileId = 0
    · simp only [h0, if_true]; exact ih (i + 1)
    · by_cases hw : chunkWidth = 0
      · simp [h0, hw, translateAll]
      · simp only [h0, hw, if_false]
        rw [translateAll_andThen, ← ih (i + 1)]
        congr 1
        simp only [translateAll, Option.map_some', ← drawTile_translate]
        congr 2 <;> ring

theorem drawChunks_translate (tileTextures : TextureMap) (tileWidth tileHeight : Int)
    (layerOffset cameraOffset : Vector2) (chunks : List Chunk) :
    drawChunks tileTextures tileWidth tileHeight layerOffset cameraOffset chunks
      = translateAll ⟨layerOffset.x - cameraOffset.x, layerOffset.y - cameraOffset.y⟩
          (drawChunks tileTextures tileWidth tileHeight ⟨0, 0⟩ ⟨0, 0⟩ chunks) := by
  induction chunks with
  | nil => simp [drawChunks, translateAll]
  | cons chunk rest ih =>
    simp only [drawChunks]
    rw [translateAll_andThen, ← ih, ← drawChunkData_translate]

theorem renderImageLayer_translate (screenWidth : Int) (camera : Camera2D)
    (imageLayer : ImageLayerInfo) :
    renderImageLayer screenWidth camera imageLayer
      = translateAll
          (screenOffset imageLayer.offset imageLayer.parallaxFactor camera.target camera.offset)
          (renderImageLayer screenWidth originCamera { imageLayer with offset := ⟨0, 0⟩ }) := by
  unfold renderImageLayer
  by_cases hr : imageLayer.repeatX = true
  · by_cases hw : imageLayer.texture.width = 0
    · simp [hr, hw, translateAll]
    · simp only [hr, hw, if_true, if_false, translateAll, Option.map_some', originCamera]
      rw [drawRepetitions_translate]
      simp [screenOffset]
  · simp [hr, translateAll, originCamera, screenOffset, DrawCommand.translate]

theorem renderTileLayer_translate (tileTextures : TextureMap) (tileWidth tileHeight : Int)
    (camera : Camera2D) (layer : Layer) :
    renderTileLayer tileTextures tileWidth tileHeight camera layer
      = translateAll (screenOffset layer.offset layer.parallax camera.target camera.offset)
          (renderTileLayer tileTextures tileWidth tileHeight originCamera
            { layer with offset := ⟨0, 0⟩ }) := by
  unfold renderTileLayer
  by_cases hc : layer.chunks = []
  · simp only [hc, ne_eq, not_true_eq_false, if_false, originCamera]
    rw [drawLayerData_translate]
    simp [screenOffset]
  · simp only [hc, ne_eq, not_false_eq_true, if_true, originCamera]
    rw [drawChunks_translate]
    simp [screenOffset]

theorem loadTilesetTiles_eq_foldl (loadTexture : String → Texture2D) (firstgid : Int)
    (tiles : List Tile) (m : TextureMap) :
    loadTilesetTiles loadTexture firstgid tiles m
      = (tiles.map fun tile =>
          (tile.id + firstgid - 1, loadTexture ("tiled_project/" ++ tile.image))).foldl
          (fun m e => m.set e.1 e.2) m := by
  induction tiles generalizing m with
  | nil => rfl
  | cons tile rest ih => simp only [loadTilesetTiles, List.map_cons, List.foldl_cons, ih]

theorem loadTilesets_eq_foldl (loadTexture : String → Texture2D) (tilesets : List Tileset)
    (m : TextureMap) :
    loadTilesets loadTexture tilesets m
      = (atlasEntries loadTexture tilesets).foldl (fun m e => m.set e.1 e.2) m := by
  induction tilesets generalizing m with
  | nil => rfl
  | cons tileset rest ih =>
    simp only [loadTilesets, atlasEntries, List.flatMap_cons, List.foldl_append, ih,
      loadTilesetTiles_eq_foldl]

theorem foldl_set_of_not_mem (es : List (Int × Texture2D)) (m : TextureMap) (k : Int)
    (h : ∀ e ∈ es, e.1 ≠ k) : (es.foldl (fun m e => m.set e.1 e.2) m) k = m k := by
  induction es generalizing m with
  | nil => rfl
  | cons e rest ih =>
    simp only [List.foldl_cons]
    rw [ih _ (fun e' he' => h e' (List.mem_cons_of_mem _ he'))]
    have : k ≠ e.1 := fun hk => h e (List.mem_cons_self _ _) hk.symm
    simp [TextureMap.set, this]

theorem foldl_set_of_mem (es : List (Int × Texture2D)) (m : TextureMap) (k : Int)
    (v : Texture2D) (hmem : (k, v) ∈ es) (huniq : ∀ v', (k, v') ∈ es → v' = v) :
    (es.foldl (fun m e => m.set e.1 e.2) m) k = some v := by
  induction es generalizing m with
  | nil => simp at hmem
  | cons e rest ih =>
    simp only [List.foldl_cons]
    by_cases hr : ∃ v', (k, v') ∈ rest
    · obtain ⟨v', hv'⟩ := hr
      have hvv : v' = v := huniq v' (List.mem_cons_of_mem _ hv')
      subst hvv
      exact ih _ hv' (fun w hw => huniq w (List.mem_cons_of_mem _ hw))
    · have hnot : ∀ e' ∈ rest, e'.1 ≠ k := by
        intro e' he' hk
        exact hr ⟨e'.2, by rw [← hk]; exact he'⟩
      rw [foldl_set_of_not_mem rest _ k hnot]
      have he : e = (k, v) := by
        rcases List.mem_cons.1 hmem with h | h
        · exact h.symm
        · exact absurd ⟨v, h⟩ hr
      simp [TextureMap.set, he]

theorem foldl_set_isSome (es : List (Int × Texture2D)) (m : TextureMap) (k : Int)
    (h : ∃ e ∈ es, e.1 = k) : ((es.foldl (fun m e => m.set e.1 e.2) m) k).isSome := by
  induction es generalizing m with
  | nil => simp at h
  | cons e rest ih =>
    simp only [List.foldl_cons]
    by_cases hr : ∃ e' ∈ rest, e'.1 = k
    · exact ih _ hr
    · have hnot : ∀ e' ∈ rest, e'.1 ≠ k := fun e' he' hk => hr ⟨e', he', hk⟩
      rw [foldl_set_of_not_mem rest _ k hnot]
      obtain ⟨e', he', hk⟩ := h
      rcases List.mem_cons.1 he' with h1 | h1
      · subst h1
        simp [TextureMap.set, hk]
      · exact absurd ⟨e', h1, hk⟩ hr

theorem foldl_set_some (es : List (Int × Texture2D)) (m : TextureMap) (k : Int)
    (v : Texture2D) (h : (es.foldl (fun m e => m.set e.1 e.2) m) k = some v) :
    (k, v) ∈ es ∨ m k = some v := by
  induction es generalizing m with
  | nil => exact Or.inr h
  | cons e rest ih =>
    simp only [List.foldl_cons] at h
    rcases ih _ h with h1 | h1
    · exact Or.inl (List.mem_cons_of_mem _ h1)
    · by_cases hk : k = e.1
      · simp only [TextureMap.set, hk, if_true, Option.some.injEq] at h1
        left
        rw [hk, ← h1]
        exact List.mem_cons_self _ _
      · simp only [TextureMap.set, hk, if_false] at h1
        exact Or.inr h1

theorem mem_atlasEntries (loadTexture : String → Texture2D) (tilesets : List Tileset)
    (k : Int) (v : Texture2D) :
    (k, v) ∈ atlasEntries loadTexture tilesets ↔
      ∃ tileset ∈ tilesets, ∃ tile ∈ tileset.tiles,
        k = tile.id + tileset.firstgid - 1
          ∧ v = loadTexture ("tiled_project/" ++ tile.image) := by
  simp only [atlasEntries, List.mem_flatMap, List.mem_map, Prod.mk.injEq]
  constructor
  · rintro ⟨ts, hts, t, ht, hk, hv⟩
    exact ⟨ts, hts, t, ht, hk.symm, hv.symm⟩
  · rintro ⟨ts, hts, t, ht, hk, hv⟩
    exact ⟨ts, hts, t, ht, hk.symm, hv.symm⟩

theorem Tileset.LocalIdsOk.id_range {tileset : Tileset} (h : tileset.LocalIdsOk) {tile : Tile}
    (ht : tile ∈ tileset.tiles) : 1 ≤ tile.id ∧ tile.id ≤ tileset.tiles.length := by
  have hm : tile.id ∈ tileset.tiles.map Tile.id := List.mem_map_of_mem _ ht
  have := (h.mem_iff).1 hm
  simp only [List.mem_map, List.mem_range] at this
  obtain ⟨k, hk, hid⟩ := this
  omega

theorem Tileset.LocalIdsOk.exists_tile {tileset : Tileset} (h : tileset.LocalIdsOk) (l : Int)
    (h1 : 1 ≤ l) (h2 : l ≤ tileset.tiles.length) : ∃ tile ∈ tileset.tiles, tile.id = l := by
  have hm : l ∈ (List.range tileset.tiles.length).map fun (k : Nat) => (k : Int) + 1 := by
    simp only [List.mem_map, List.mem_range]
    exact ⟨(l - 1).toNat, by omega, by omega⟩
  have := (h.mem_iff).2 hm
  simpa [List.mem_map] using this

theorem Tileset.LocalIdsOk.tile_unique {tileset : Tileset} (h : tileset.LocalIdsOk) {a b : Tile}
    (ha : a ∈ tileset.tiles) (hb : b ∈ tileset.tiles) (hid : a.id = b.id) : a = b := by
  have hnd : (tileset.tiles.map Tile.id).Nodup := by
    refine (h.nodup_iff).2 ?_
    refine List.Nodup.map ?_ (List.nodup_range _)
    intro x y hxy
    simpa using hxy
  exact List.inj_on_of_nodup_map hnd ha hb hid

/-- C2. Every tile is registered under key `localId + firstGlobalId - 1` and the
map holds nothing else; hence, for tilesets with pairwise non-overlapping global
id ranges whose tiles carry the local ids 1..tileCount, every global id `g` in
`[firstGlobalId, firstGlobalId + tileCount - 1]` of a tileset has an entry, the
texture of that tileset's tile with local id `g - firstGlobalId + 1`. -/
theorem atlas_resolves_global_ids (loadTexture : String → Texture2D) (map : Map) :
    (∀ tileset ∈ map.tilesets, ∀ tile ∈ tileset.tiles,
        (loadTileTextures loadTexture map (tile.id + tileset.firstgid - 1)).isSome)
    ∧ (∀ (k : Int) (texture : Texture2D), loadTileTextures loadTexture map k = some texture →
        ∃ tileset ∈ map.tilesets, ∃ tile ∈ tileset.tiles,
          k = tile.id + tileset.firstgid - 1
            ∧ texture = loadTexture ("tiled_project/" ++ tile.image))
    ∧ ((∀ tileset ∈ map.tilesets, tileset.LocalIdsOk) →
        map.tilesets.Pairwise Tileset.RangesDisjoint →
        ∀ tileset ∈ map.tilesets, ∀ g : Int, tileset.firstgid ≤ g →
          g ≤ tileset.firstgid + tileset.tiles.length - 1 →
          ∃ tile ∈ tileset.tiles, tile.id = g - tileset.firstgid + 1
            ∧ loadTileTextures loadTexture map g
              = some (loadTexture ("tiled_project/" ++ tile.image))) := by
  refine ⟨?_, ?_, ?_⟩
  · intro tileset hts tile ht
    rw [loadTileTextures, loadTilesets_eq_foldl]
    exact foldl_set_isSome _ _ _
      ⟨_, (mem_atlasEntries loadTexture map.tilesets _ _).2 ⟨tileset, hts, tile, ht, rfl, rfl⟩,
        rfl⟩
  · intro k texture h
    rw [loadTileTextures, loadTilesets_eq_foldl] at h
    rcases foldl_set_some _ _ _ _ h with h1 | h1
    · exact (mem_atlasEntries _ _ _ _).1 h1
    · simp [TextureMap.empty] at h1
  · intro hids hdisj tileset hts g hlo hhi
    obtain ⟨tile, ht, hid⟩ :=
      (hids tileset hts).exists_tile (g - tileset.firstgid + 1) (by omega) (by omega)
    refine ⟨tile, ht, hid, ?_⟩
    rw [loadTileTextures, loadTilesets_eq_foldl]
    apply foldl_set_of_mem
    · exact (mem_atlasEntries _ _ _ _).2 ⟨tileset, hts, tile, ht, by omega, rfl⟩
    · intro v' hv'
      obtain ⟨ts', hts', t', ht', hk, hv⟩ := (mem_atlasEntries _ _ _ _).1 hv'
      have hr' := (hids ts' hts').id_range ht'
      have hsame : ts' = tileset := by
        by_contra hne
        have hsymm : Symmetric Tileset.RangesDisjoint := fun a b hab => Or.symm hab
        have := hdisj.forall hsymm hts' hts hne
        unfold Tileset.RangesDisjoint at this
        omega
      subst hsame
      have : t' = tile := (hids ts' hts').tile_unique ht' ht (by omega)
      rw [hv, this]

/-- C2 (witness): global id 4 of the second of the two tilesets of `twoTilesets`. -/
theorem atlas_resolves_global_ids_witness :
    (∀ tileset ∈ twoTilesets.tilesets, tileset.LocalIdsOk)
    ∧ twoTilesets.tilesets.Pairwise Tileset.RangesDisjoint
    ∧ ∃ tile ∈ [(⟨2, "d.png"⟩ : Tile), ⟨1, "c.png"⟩, ⟨3, "e.png"⟩], tile.id = 4 - 3 + 1
        ∧ loadTileTextures sampleLoader twoTilesets 4
          = some (sampleLoader ("tiled_project/" ++ tile.image)) :=
  have h1 : ∀ tileset ∈ twoTilesets.tilesets, tileset.LocalIdsOk := by decide
  have h2 : twoTilesets.tilesets.Pairwise Tileset.RangesDisjoint := by decide
  ⟨h1, h2, (atlas_resolves_global_ids sampleLoader twoTilesets).2.2 h1 h2
    ⟨3, [⟨2, "d.png"⟩, ⟨1, "c.png"⟩, ⟨3, "e.png"⟩]⟩ (by decide) 4 (by decide) (by decide)⟩

/-! ## C3: which entries are drawn -/

theorem drawTile_eq_entryBlit (tileTextures : TextureMap) (tileWidth tileHeight : Int)
    (layerOffset cameraOffset : Vector2) (originX originY : Int) (w i tileId : Nat)
    (h0 : tileId ≠ 0) :
    drawTile tileTextures tileId
        ((((originX + ((i % w : Nat) : Int)) * tileWidth : Int) : ℚ)
          + layerOffset.x - cameraOffset.x)
        ((((originY + ((i / w : Nat) : Int)) * tileHeight : Int) : ℚ)
          + layerOffset.y - cameraOffset.y)
      = (entryBlit tileTextures tileWidth tileHeight
          ⟨layerOffset.x - cameraOffset.x, layerOffset.y - cameraOffset.y⟩
          originX originY w i tileId).toList := by
  unfold drawTile entryBlit
  cases tileTextures (tileId : Int) <;> simp [h0, blitAt, add_sub_assoc]

theorem drawChunkData_eq (tileTextures : TextureMap) (tileWidth tileHeight : Int)
    (layerOffset cameraOffset : Vector2) (chunkWidth : Nat) (chunkX chunkY : Int)
    (hw : chunkWidth ≠ 0) (i : Nat) (data : List Nat) :
    drawChunkData tileTextures tileWidth tileHeight layerOffset cameraOffset chunkWidth
        chunkX chunkY i data
      = some ((data.enumFrom i).filterMap fun e =>
          entryBlit tileTextures tileWidth tileHeight
            ⟨layerOffset.x - cameraOffset.x, layerOffset.y - cameraOffset.y⟩
            chunkX chunkY chunkWidth e.1 e.2) := by
  induction data generalizing i with
  | nil => simp [drawChunkData]
  | cons tileId rest ih =>
    unfold drawChunkData
    by_cases h0 : tileId = 0
    · simp only [h0, if_true, List.enumFrom_cons, List.filterMap_cons, entryBlit]
      exact ih (i + 1)
    · simp only [h0, hw, if_false, List.enumFrom_cons, List.filterMap_cons]
      rw [ih (i + 1), drawTile_eq_entryBlit _ _ _ _ _ _ _ _ _ _ h0, andThen_some]
      cases entryBlit tileTextures tileWidth tileHeight
        ⟨layerOffset.x - cameraOffset.x, layerOffset.y - cameraOffset.y⟩
        chunkX chunkY chunkWidth i tileId <;> simp

theorem drawLayerData_eq (tileTextures : TextureMap) (tileWidth tileHeight : Int)
    (layerOffset cameraOffset : Vector2) (layerWidth : Nat)
    (hw : layerWidth ≠ 0) (i : Nat) (data : List Nat) :
    drawLayerData tileTextures tileWidth tileHeight layerOffset cameraOffset layerWidth i data
      = some ((data.enumFrom i).filterMap fun e =>
          entryBlit tileTextures tileWidth tileHeight
            ⟨layerOffset.x - cameraOffset.x, layerOffset.y - cameraOffset.y⟩
            0 0 layerWidth e.1 e.2) := by
  induction data generalizing i with
  | nil => simp [drawLayerData]
  | cons tileId rest ih =>
    unfold drawLayerData
    by_cases h0 : tileId = 0
    · simp only [h0, if_true, List.enumFrom_cons, List.filterMap_cons, entryBlit]
      exact ih (i + 1)
    · simp only [h0, hw, if_false, List.enumFrom_cons, List.filterMap_cons]
      have hd := drawTile_eq_entryBlit tileTextures tileWidth tileHeight layerOffset
        cameraOffset 0 0 layerWidth i tileId h0
      simp only [zero_add] at hd
      rw [ih (i + 1), hd, andThen_some]
      cases entryBlit tileTextures tileWidth tileHeight
        ⟨layerOffset.x - cameraOffset.x, layerOffset.y - cameraOffset.y⟩
        0 0 layerWidth i tileId <;> simp

theorem shape_stride (size : Size) (data : List Nat) (hs : data.length = size.x * size.y)
    (hne : data ≠ []) : size.x ≠ 0 := by
  intro hw
  apply hne
  apply List.eq_nil_of_length_eq_zero
  rw [hs, hw, Nat.zero_mul]

theorem drawChunkData_strided (tileTextures : TextureMap) (tileWidth tileHeight : Int)
    (layerOffset cameraOffset : Vector2) (chunk : Chunk)
    (hs : chunk.data ≠ [] → chunk.size.x ≠ 0) :
    drawChunkData tileTextures tileWidth tileHeight layerOffset cameraOffset chunk.size.x
        chunk.position.x chunk.position.y 0 chunk.data
      = some (tileDataBlits tileTextures tileWidth tileHeight
          ⟨layerOffset.x - cameraOffset.x, layerOffset.y - cameraOffset.y⟩
          chunk.position.x chunk.position.y chunk.size.x chunk.data) := by
  by_cases hnil : chunk.data = []
  · simp [hnil, drawChunkData, tileDataBlits]
  · rw [drawChunkData_eq _ _ _ _ _ _ _ _ (hs hnil)]
    rfl

theorem drawChunks_strided (tileTextures : TextureMap) (tileWidth tileHeight : Int)
    (layerOffset cameraOffset : Vector2) (chunks : List Chunk)
    (hs : ∀ chunk ∈ chunks, chunk.data ≠ [] → chunk.size.x ≠ 0) :
    drawChunks tileTextures tileWidth tileHeight layerOffset cameraOffset chunks
      = some (chunks.flatMap fun chunk =>
          tileDataBlits tileTextures tileWidth tileHeight
            ⟨layerOffset.x - cameraOffset.x, layerOffset.y - cameraOffset.y⟩
            chunk.position.x chunk.position.y chunk.size.x chunk.data) := by
  induction chunks with
  | nil => rfl
  | cons chunk rest ih =>
    simp only [drawChunks, List.flatMap_cons]
    rw [drawChunkData_strided _ _ _ _ _ _ (hs chunk (List.mem_cons_self _ _)),
      ih (fun c hc => hs c (List.mem_cons_of_mem _ hc)), andThen_some]

theorem holdsTile_cons_zero (rest : List Nat) : holdsTile (0 :: rest) ↔ holdsTile rest := by
  simp [holdsTile]

theorem holdsTile_cons_of_ne {tileId : Nat} (h : tileId ≠ 0) (rest : List Nat) :
    holdsTile (tileId :: rest) := ⟨tileId, List.mem_cons_self _ _, h⟩

theorem not_holdsTile_nil : ¬ holdsTile [] := by
  simp [holdsTile]

theorem filterMap_entryBlit_of_not_holdsTile (tileTextures : TextureMap)
    (tileWidth tileHeight : Int) (so : Vector2) (originX originY : Int) (w : Nat)
    (i : Nat) (data : List Nat) (h : ¬ holdsTile data) :
    ((data.enumFrom i).filterMap fun e =>
      entryBlit tileTextures tileWidth tileHeight so originX originY w e.1 e.2) = [] := by
  induction data generalizing i with
  | nil => rfl
  | cons tileId rest ih =>
    have h0 : tileId = 0 := by
      by_contra hne
      exact h (holdsTile_cons_of_ne hne rest)
    subst h0
    simp only [List.enumFrom_cons, List.filterMap_cons, entryBlit, if_true]
    exact ih (i + 1) (fun hr => h ((holdsTile_cons_zero rest).2 hr))

theorem drawLayerData_zero_width (tileTextures : TextureMap) (tileWidth tileHeight : Int)
    (layerOffset cameraOffset : Vector2) (i : Nat) (data : List Nat) :
    drawLayerData tileTextures tileWidth tileHeight layerOffset cameraOffset 0 i data
      = if holdsTile data then none else some [] := by
  induction data generalizing i with
  | nil => simp [drawLayerData, not_holdsTile_nil]
  | cons tileId rest ih =>
    unfold drawLayerData
    by_cases h0 : tileId = 0
    · subst h0
      simp only [if_true, holdsTile_cons_zero]
      exact ih (i + 1)
    · simp [h0, holdsTile_cons_of_ne h0 rest]

theorem drawChunkData_zero_width (tileTextures : TextureMap) (tileWidth tileHeight : Int)
    (layerOffset cameraOffset : Vector2) (chunkX chunkY : Int) (i : Nat) (data : List Nat) :
    drawChunkData tileTextures tileWidth tileHeight layerOffset cameraOffset 0 chunkX chunkY
        i data
      = if holdsTile data then none else some [] := by
  induction data generalizing i with
  | nil => simp [drawChunkData, not_holdsTile_nil]
  | cons tileId rest ih =>
    unfold drawChunkData
    by_cases h0 : tileId = 0
    · subst h0
      simp only [if_true, holdsTile_cons_zero]
      exact ih (i + 1)
    · simp [h0, holdsTile_cons_of_ne h0 rest]

theorem drawLayerData_cases (tileTextures : TextureMap) (tileWidth tileHeight : Int)
    (layerOffset cameraOffset : Vector2) (layerWidth : Nat) (data : List Nat) :
    drawLayerData tileTextures tileWidth tileHeight layerOffset cameraOffset layerWidth 0 data
      = if holdsTile data → layerWidth ≠ 0 then
          some (tileDataBlits tileTextures tileWidth tileHeight
            ⟨layerOffset.x - cameraOffset.x, layerOffset.y - cameraOffset.y⟩ 0 0 layerWidth
            data)
        else none := by
  by_cases hw : layerWidth = 0
  · subst hw
    rw [drawLayerData_zero_width]
    by_cases hh : holdsTile data
    · simp [hh]
    · simp [hh, tileDataBlits, List.enum,
        filterMap_entryBlit_of_not_holdsTile _ _ _ _ _ _ _ _ _ hh]
  · rw [drawLayerData_eq _ _ _ _ _ _ hw, if_pos (fun _ => hw)]
    rfl

theorem drawChunkData_cases (tileTextures : TextureMap) (tileWidth tileHeight : Int)
    (layerOffset cameraOffset : Vector2) (chunk : Chunk) :
    drawChunkData tileTextures tileWidth tileHeight layerOffset cameraOffset chunk.size.x
        chunk.position.x chunk.position.y 0 chunk.data
      = if holdsTile chunk.data → chunk.size.x ≠ 0 then
          some (tileDataBlits tileTextures tileWidth tileHeight
            ⟨layerOffset.x - cameraOffset.x, layerOffset.y - cameraOffset.y⟩
            chunk.position.x chunk.position.y chunk.size.x chunk.data)
        else none := by
  by_cases hw : chunk.size.x = 0
  · rw [hw, drawChunkData_zero_width]
    by_cases hh : holdsTile chunk.data
    · simp [hh]
    · simp [hh, tileDataBlits, List.enum,
        filterMap_entryBlit_of_not_holdsTile _ _ _ _ _ _ _ _ _ hh]
  · rw [drawChunkData_eq _ _ _ _ _ _ _ _ hw, if_pos (fun _ => hw)]
    rfl

theorem drawChunks_cases (tileTextures : TextureMap) (tileWidth tileHeight : Int)
    (layerOffset cameraOffset : Vector2) (chunks : List Chunk) :
    drawChunks tileTextures tileWidth tileHeight layerOffset cameraOffset chunks
      = if ∀ chunk ∈ chunks, holdsTile chunk.data → chunk.size.x ≠ 0 then
          some (chunks.flatMap fun chunk =>
            tileDataBlits tileTextures tileWidth tileHeight
              ⟨layerOffset.x - cameraOffset.x, layerOffset.y - cameraOffset.y⟩
              chunk.position.x chunk.position.y chunk.size.x chunk.data)
        else none := by
  induction chunks with
  | nil => simp [drawChunks]
  | cons chunk rest ih =>
    simp only [drawChunks, List.flatMap_cons, List.forall_mem_cons]
    rw [drawChunkData_cases, ih]
    by_cases h1 : holdsTile chunk.data → chunk.size.x ≠ 0
    · by_cases h2 : ∀ chunk ∈ rest, holdsTile chunk.data → chunk.size.x ≠ 0
      · rw [if_pos h1, if_pos h2, if_pos ⟨h1, h2⟩, andThen_some]
      · rw [if_pos h1, if_neg h2, if_neg (fun h => h2 h.2)]
        rfl
    · have h3 : ¬ ((holdsTile chunk.data → chunk.size.x ≠ 0)
          ∧ ∀ chunk ∈ rest, holdsTile chunk.data → chunk.size.x ≠ 0) := fun h => h1 h.1
      rw [if_neg h1, if_neg h3]
      split <;> rfl

theorem renderTileLayer_cases (tileTextures : TextureMap) (tileWidth tileHeight : Int)
    (camera : Camera2D) (layer : Layer) :
    renderTileLayer tileTextures tileWidth tileHeight camera layer
      = if layer.Drawable then
          some (tileLayerBlits tileTextures tileWidth tileHeight
            (screenOffset layer.offset layer.parallax camera.target camera.offset) layer)
        else none := by
  unfold renderTileLayer tileLayerBlits Layer.Drawable
  by_cases hc : layer.chunks = []
  · simp only [hc, ne_eq, not_true_eq_false, if_false]
    rw [drawLayerData_cases]
    rfl
  · simp only [hc, ne_eq, not_false_eq_true, if_true]
    rw [drawChunks_cases]
    rfl

theorem tileDataBlits_textures (tileTextures : TextureMap) (tileWidth tileHeight : Int)
    (so : Vector2) (originX originY : Int) (w : Nat) (i : Nat) (data : List Nat) :
    ((data.enumFrom i).filterMap fun e =>
        entryBlit tileTextures tileWidth tileHeight so originX originY w e.1 e.2).map
        DrawCommand.textureOf
      = (data.filterMap fun (tileId : Nat) =>
          if tileId = 0 then none else tileTextures (tileId : Int)).map some := by
  induction data generalizing i with
  | nil => rfl
  | cons tileId rest ih =>
    simp only [List.enumFrom_cons, List.filterMap_cons]
    by_cases h0 : tileId = 0
    · simp only [h0, entryBlit, if_true]
      exact ih (i + 1)
    · have he : entryBlit tileTextures tileWidth tileHeight so originX originY w i tileId
          = (tileTextures (tileId : Int)).map fun texture =>
              blitAt tileWidth tileHeight so texture (originX + ((i % w : Nat) : Int))
                (originY + ((i / w : Nat) : Int)) := by
        simp only [entryBlit, h0, if_false]
      simp only [he, h0, if_false]
      cases tileTextures (tileId : Int) with
      | none => exact ih (i + 1)
      | some texture =>
        simp only [Option.map_some', List.map_cons, blitAt, DrawCommand.textureOf]
        rw [ih (i + 1)]

theorem tileLayerBlits_textures (tileTextures : TextureMap) (tileWidth tileHeight : Int)
    (so : Vector2) (layer : Layer) :
    (tileLayerBlits tileTextures tileWidth tileHeight so layer).map DrawCommand.textureOf
      = (layer.tileEntries.filterMap fun (tileId : Nat) =>
          if tileId = 0 then none else tileTextures (tileId : Int)).map some := by
  unfold tileLayerBlits Layer.tileEntries
  by_cases hc : layer.chunks = []
  · simp only [hc, ne_eq, not_true_eq_false, if_false]
    exact tileDataBlits_textures _ _ _ _ _ _ _ 0 _
  · simp only [hc, ne_eq, not_false_eq_true, if_true]
    induction layer.chunks with
    | nil => rfl
    | cons chunk rest ih =>
      simp only [List.flatMap_cons, List.map_append, List.filterMap_append, ih]
      congr 1
      exact tileDataBlits_textures _ _ _ _ _ _ _ 0 _

/-- C3, as stated, fails: a finite tile layer of declared width 0 whose array holds the
id 5, absent from the (empty) atlas, is not drawn without error: the frame
computes `i % layerWidth` with `layerWidth = 0` before it looks the id up. -/
theorem zero_width_layer_divides_by_zero :
    TextureMap.empty ((5 : Nat) : Int) = none
      ∧ zeroWidthLayer.data = [5] ∧ zeroWidthLayer.size.x = 0
      ∧ renderTileLayer TextureMap.empty 16 16 originCamera zeroWidthLayer = none := by
  refine ⟨rfl, rfl, rfl, ?_⟩
  simp [renderTileLayer, zeroWidthLayer, plainLayer, drawLayerData]

/-- C3 (amended). For every atlas and every camera state, a tile layer (finite or
chunked) in which every tile array that holds a non-zero id has a non-zero
declared width is drawn without error, by exactly the draws of its entries: an
entry gives a texture draw if and only if its id is non-zero and the atlas
contains the id, each such entry gives exactly one draw, carrying the atlas
texture of the id, and the draws are in array order within the flat array or
within each chunk, chunk after chunk.  In particular an entry with id 0 or with
an id absent from the atlas contributes no draw command. -/
theorem tile_entries_drawn (tileTextures : TextureMap) (tileWidth tileHeight : Int)
    (camera : Camera2D) (layer : Layer) :
    (layer.Drawable →
      ∃ cmds, renderTileLayer tileTextures tileWidth tileHeight camera layer = some cmds
        ∧ cmds = tileLayerBlits tileTextures tileWidth tileHeight
            (screenOffset layer.offset layer.parallax camera.target camera.offset) layer
        ∧ cmds.map DrawCommand.textureOf
          = (layer.tileEntries.filterMap fun (tileId : Nat) =>
              if tileId = 0 then none else tileTextures (tileId : Int)).map some)
    ∧ (∀ (so : Vector2) (originX originY : Int) (w i tileId : Nat) (cmd : DrawCommand),
        entryBlit tileTextures tileWidth tileHeight so originX originY w i tileId = some cmd
          ↔ (tileId ≠ 0 ∧ ∃ texture, tileTextures (tileId : Int) = some texture
              ∧ cmd = DrawCommand.DrawTexture texture
                  ((((originX + ((i % w : Nat) : Int)) * tileWidth : Int) : ℚ) + so.x)
                  ((((originY + ((i / w : Nat) : Int)) * tileHeight : Int) : ℚ) + so.y)
                  WHITE)) := by
  constructor
  · intro hd
    refine ⟨_, ?_, rfl, tileLayerBlits_textures _ _ _ _ _⟩
    rw [renderTileLayer_cases, if_pos hd]
  · intro so originX originY w i tileId cmd
    unfold entryBlit
    by_cases h0 : tileId = 0
    · simp [h0]
    · simp only [h0, if_false, Option.map_eq_some', ne_eq, not_false_eq_true, true_and, blitAt]
      constructor
      · rintro ⟨texture, ht, hcmd⟩
        exact ⟨texture, ht, hcmd.symm⟩
      · rintro ⟨texture, ht, hcmd⟩
        exact ⟨texture, ht, hcmd.symm⟩

/-- C3 (witness): the three-chunk layer `chunkedLayer` under the camera of `main`; the
ids 0 and 9 (absent from the atlas) give no draw, the all-zero chunk of width 0
raises no error. -/
theorem tile_entries_drawn_witness :
    chunkedLayer.Drawable
    ∧ ∃ cmds,
      renderTileLayer (loadTileTextures sampleLoader twoTilesets) 16 16 (mainCamera ⟨10, 0⟩)
          chunkedLayer = some cmds
        ∧ cmds = tileLayerBlits (loadTileTextures sampleLoader twoTilesets) 16 16
            (screenOffset chunkedLayer.offset chunkedLayer.parallax (mainCamera ⟨10, 0⟩).target
              (mainCamera ⟨10, 0⟩).offset) chunkedLayer
        ∧ cmds.map DrawCommand.textureOf
          = (chunkedLayer.tileEntries.filterMap fun (tileId : Nat) =>
              if tileId = 0 then none
              else loadTileTextures sampleLoader twoTilesets (tileId : Int)).map some :=
  have hd : chunkedLayer.Drawable := by decide
  ⟨hd, (tile_entries_drawn (loadTileTextures sampleLoader twoTilesets) 16 16
    (mainCamera ⟨10, 0⟩) chunkedLayer).1 hd⟩

/-- The draws of `chunkedLayer` under the camera of `main` with target (10,0): ids 5, 1
and 2, at the `float` positions of spec 4.2.2. -/
theorem chunkedLayer_draws :
    renderTileLayer (loadTileTextures sampleLoader twoTilesets) 16 16 (mainCamera ⟨10, 0⟩)
        chunkedLayer
      = some [DrawCommand.DrawTexture (sampleLoader "tiled_project/e.png") (-728) (-492) WHITE,
              DrawCommand.DrawTexture (sampleLoader "tiled_project/a.png") (-712) (-476) WHITE,
              DrawCommand.DrawTexture (sampleLoader "tiled_project/b.png") (-648) (-460)
                WHITE] := by
  rw [renderTileLayer_cases, if_pos (by decide)]
  simp [tileLayerBlits, tileDataBlits, entryBlit, blitAt, chunkedLayer, plainLayer,
    List.enum, List.enumFrom, loadTileTextures, loadTilesets, loadTilesetTiles, twoTilesets,
    TextureMap.set, TextureMap.empty, screenOffset, mainCamera, screenWidth, screenHeight]
  norm_num

/-! ## C4: chunked and finite storage -/

theorem tileDataBlits_eq_map (tileTextures : TextureMap) (tileWidth tileHeight : Int)
    (so : Vector2) (originX originY : Int) (w : Nat) (data : List Nat) :
    tileDataBlits tileTextures tileWidth tileHeight so originX originY w data
      = (locatedTiles tileTextures originX originY w data).map fun p =>
          blitAt tileWidth tileHeight so p.2.1 p.2.2.1 p.2.2.2 := by
  unfold tileDataBlits locatedTiles
  rw [List.map_filterMap]
  congr 1
  funext e
  unfold entryBlit
  by_cases h0 : e.2 = 0
  · simp [h0]
  · simp only [h0, if_false, Option.map_map]
    rfl

theorem mem_locatedTiles (tileTextures : TextureMap) (originX originY : Int) (w : Nat)
    (data : List Nat) (tileId : Nat) (texture : Texture2D) (tx ty : Int) :
    (tileId, texture, tx, ty) ∈ locatedTiles tileTextures originX originY w data
      ↔ tileId ≠ 0 ∧ tileTextures (tileId : Int) = some texture
        ∧ ∃ i : Nat, data[i]? = some tileId
          ∧ tx = originX + ((i % w : Nat) : Int) ∧ ty = originY + ((i / w : Nat) : Int) := by
  unfold locatedTiles
  simp only [List.mem_filterMap, List.mem_enum_iff_getElem?]
  constructor
  · rintro ⟨⟨i, id⟩, hget, h⟩
    by_cases h0 : id = 0
    · simp [h0] at h
    · simp only [h0, if_false, Option.map_eq_some', Prod.mk.injEq] at h
      obtain ⟨t, ht, hid, htex, hx, hy⟩ := h
      subst hid htex
      exact ⟨h0, ht, i, hget, hx.symm, hy.symm⟩
  · rintro ⟨h0, ht, i, hget, hx, hy⟩
    refine ⟨(i, tileId), hget, ?_⟩
    simp [h0, ht, hx, hy]

theorem nodup_locatedTiles (tileTextures : TextureMap) (originX originY : Int) (w : Nat)
    (data : List Nat) :
    (locatedTiles tileTextures originX originY w data).Nodup := by
  unfold locatedTiles
  refine List.Nodup.filterMap ?_ (List.Nodup.of_map Prod.fst (List.nodup_enum_map_fst data))
  rintro ⟨i, id⟩ ⟨j, id'⟩ b hb hb'
  simp only [Option.mem_def] at hb hb'
  by_cases h0 : id = 0
  · simp [h0] at hb
  by_cases h0' : id' = 0
  · simp [h0'] at hb'
  simp only [h0, h0', if_false, Option.map_eq_some'] at hb hb'
  obtain ⟨t, _, rfl⟩ := hb
  obtain ⟨t', _, h⟩ := hb'
  simp only [Prod.mk.injEq] at h
  obtain ⟨hid, _, hx, hy⟩ := h
  have hx' : j % w = i % w := by omega
  have hy' : j / w = i / w := by omega
  have hij : i = j := by
    rw [← Nat.div_add_mod i w, ← Nat.div_add_mod j w, hx', hy']
  rw [hij, hid]

theorem located_in_chunk {tileTextures : TextureMap} {chunk : Chunk} (hs : chunk.WellShaped)
    (hw : 0 < chunk.size.x) {p : Nat × Texture2D × Int × Int}
    (hp : p ∈ locatedTiles tileTextures chunk.position.x chunk.position.y chunk.size.x
      chunk.data) :
    chunk.position.x ≤ p.2.2.1 ∧ p.2.2.1 < chunk.position.x + chunk.size.x
      ∧ chunk.position.y ≤ p.2.2.2 ∧ p.2.2.2 < chunk.position.y + chunk.size.y := by
  obtain ⟨id, t, tx, ty⟩ := p
  obtain ⟨_, _, i, hget, hx, hy⟩ := (mem_locatedTiles _ _ _ _ _ _ _ _ _).1 hp
  have hi : i < chunk.data.length := by
    by_contra hcon
    rw [List.getElem?_eq_none (by omega)] at hget
    exact Option.noConfusion hget
  rw [hs] at hi
  have hmod : i % chunk.size.x < chunk.size.x := Nat.mod_lt _ hw
  have hdiv : i / chunk.size.x < chunk.size.y := by
    apply Nat.div_lt_of_lt_mul
    exact hi
  generalize i / chunk.size.x = q at hy hdiv
  generalize i % chunk.size.x = r at hx hmod
  simp only
  omega

theorem chunkBlits_eq_map (tileTextures : TextureMap) (tileWidth tileHeight : Int)
    (so : Vector2) (chunks : List Chunk) :
    (chunks.flatMap fun chunk =>
        tileDataBlits tileTextures tileWidth tileHeight so chunk.position.x chunk.position.y
          chunk.size.x chunk.data)
      = (chunks.flatMap fun chunk =>
          locatedTiles tileTextures chunk.position.x chunk.position.y chunk.size.x
            chunk.data).map fun p => blitAt tileWidth tileHeight so p.2.1 p.2.2.1 p.2.2.2 := by
  rw [List.map_flatMap]
  congr 1
  funext chunk
  exact tileDataBlits_eq_map _ _ _ _ _ _ _ _

theorem nodup_chunk_located (tileTextures : TextureMap) (chunks : List Chunk)
    (hs : ∀ chunk ∈ chunks, 0 < chunk.size.x ∧ chunk.WellShaped)
    (hdisj : chunks.Pairwise Chunk.Disjoint) :
    (chunks.flatMap fun chunk =>
      locatedTiles tileTextures chunk.position.x chunk.position.y chunk.size.x
        chunk.data).Nodup := by
  rw [List.nodup_flatMap]
  refine ⟨fun c _ => nodup_locatedTiles _ _ _ _ _, ?_⟩
  refine hdisj.imp_of_mem ?_
  intro a b ha hb hab
  simp only [Function.onFun]
  intro p hpa hpb
  have h1 := located_in_chunk (hs a ha).2 (hs a ha).1 hpa
  have h2 := located_in_chunk (hs b hb).2 (hs b hb).1 hpb
  unfold Chunk.Disjoint at hab
  omega

theorem renderTileLayer_finite (tileTextures : TextureMap) (tileWidth tileHeight : Int)
    (camera : Camera2D) (layer : Layer) (hc : layer.chunks = []) (hw : layer.size.x ≠ 0) :
    renderTileLayer tileTextures tileWidth tileHeight camera layer
      = some (tileDataBlits tileTextures tileWidth tileHeight
          (screenOffset layer.offset layer.parallax camera.target camera.offset)
          0 0 layer.size.x layer.data) := by
  unfold renderTileLayer
  simp only [hc, ne_eq, not_true_eq_false, if_false]
  rw [drawLayerData_eq _ _ _ _ _ _ hw]
  rfl

theorem renderTileLayer_chunked (tileTextures : TextureMap) (tileWidth tileHeight : Int)
    (camera : Camera2D) (layer : Layer) (hc : layer.chunks ≠ [])
    (hs : ∀ chunk ∈ layer.chunks, chunk.WellShaped) :
    renderTileLayer tileTextures tileWidth tileHeight camera layer
      = some (layer.chunks.flatMap fun chunk =>
          tileDataBlits tileTextures tileWidth tileHeight
            (screenOffset layer.offset layer.parallax camera.target camera.offset)
            chunk.position.x chunk.position.y chunk.size.x chunk.data) := by
  unfold renderTileLayer
  simp only [hc, ne_eq, not_false_eq_true, if_true]
  rw [drawChunks_strided _ _ _ _ _ _ (fun c hc => shape_stride _ _ (hs c hc))]
  rfl

/-- C4. For every camera state, atlas, tile size, layer offset and parallax factor:
a finite tile layer of width `w > 0` and a chunked tile layer whose chunks are
pairwise non-overlapping, each of width `> 0` and with `width * height` entries,
that hold the same non-zero ids at the same world tile coordinates, are both
drawn without error, and with the same multiset of texture draws (same texture,
same x, same y). -/
theorem chunked_matches_finite (tileTextures : TextureMap) (tileWidth tileHeight : Int)
    (camera : Camera2D) (finite chunked : Layer)
    (hfinite : finite.chunks = []) (hchunked : chunked.chunks ≠ [])
    (hoffset : chunked.offset = finite.offset) (hparallax : chunked.parallax = finite.parallax)
    (hw : 0 < finite.size.x)
    (hchunks : ∀ chunk ∈ chunked.chunks, 0 < chunk.size.x ∧ chunk.WellShaped)
    (hdisj : chunked.chunks.Pairwise Chunk.Disjoint)
    (hsame : ∀ (tileId : Nat) (tx ty : Int), tileId ≠ 0 →
      (FiniteHolds finite tileId tx ty ↔ ChunkedHolds chunked tileId tx ty)) :
    ∃ fcmds ccmds,
      renderTileLayer tileTextures tileWidth tileHeight camera finite = some fcmds
        ∧ renderTileLayer tileTextures tileWidth tileHeight camera chunked = some ccmds
        ∧ (fcmds : Multiset DrawCommand) = (ccmds : Multiset DrawCommand) := by
  refine ⟨_, _, renderTileLayer_finite _ _ _ _ _ hfinite hw.ne',
    renderTileLayer_chunked _ _ _ _ _ hchunked (fun c hc => (hchunks c hc).2), ?_⟩
  rw [hoffset, hparallax, tileDataBlits_eq_map, chunkBlits_eq_map, Multiset.coe_eq_coe]
  apply List.Perm.map
  rw [List.perm_ext_iff_of_nodup (nodup_locatedTiles _ _ _ _ _)
    (nodup_chunk_located _ _ hchunks hdisj)]
  rintro ⟨tileId, texture, tx, ty⟩
  rw [mem_locatedTiles, List.mem_flatMap]
  constructor
  · rintro ⟨h0, ht, i, hget, hx, hy⟩
    obtain ⟨chunk, hc, j, hj, hjx, hjy⟩ :=
      (hsame tileId tx ty h0).1 ⟨i, hget, by omega, by omega⟩
    exact ⟨chunk, hc, (mem_locatedTiles _ _ _ _ _ _ _ _ _).2 ⟨h0, ht, j, hj, hjx, hjy⟩⟩
  · rintro ⟨chunk, hc, hp⟩
    obtain ⟨h0, ht, j, hj, hjx, hjy⟩ := (mem_locatedTiles _ _ _ _ _ _ _ _ _).1 hp
    obtain ⟨i, hget, hx, hy⟩ := (hsame tileId tx ty h0).2 ⟨chunk, hc, j, hj, hjx, hjy⟩
    exact ⟨h0, ht, i, hget, by omega, by omega⟩

theorem finiteHolds_iff_mem (layer : Layer) (tileId : Nat) (tx ty : Int) :
    FiniteHolds layer tileId tx ty
      ↔ (tileId, tx, ty) ∈ layer.data.enum.map fun e =>
          (e.2, ((e.1 % layer.size.x : Nat) : Int), ((e.1 / layer.size.x : Nat) : Int)) := by
  unfold FiniteHolds
  simp only [List.mem_map, List.mem_enum_iff_getElem?, Prod.mk.injEq]
  constructor
  · rintro ⟨i, hget, hx, hy⟩
    exact ⟨(i, tileId), hget, rfl, hx.symm, hy.symm⟩
  · rintro ⟨⟨i, id⟩, hget, hid, hx, hy⟩
    simp only at hget hid hx hy
    subst hid
    exact ⟨i, hget, hx.symm, hy.symm⟩

theorem chunkedHolds_iff_mem (layer : Layer) (tileId : Nat) (tx ty : Int) :
    ChunkedHolds layer tileId tx ty
      ↔ (tileId, tx, ty) ∈ layer.chunks.flatMap fun chunk =>
          chunk.data.enum.map fun e =>
            (e.2, chunk.position.x + ((e.1 % chunk.size.x : Nat) : Int),
              chunk.position.y + ((e.1 / chunk.size.x : Nat) : Int)) := by
  unfold ChunkedHolds
  simp only [List.mem_flatMap, List.mem_map, List.mem_enum_iff_getElem?, Prod.mk.injEq]
  constructor
  · rintro ⟨chunk, hc, i, hget, hx, hy⟩
    exact ⟨chunk, hc, (i, tileId), hget, rfl, hx.symm, hy.symm⟩
  · rintro ⟨chunk, hc, ⟨i, id⟩, hget, hid, hx, hy⟩
    simp only at hget hid hx hy
    subst hid
    exact ⟨chunk, hc, i, hget, hx.symm, hy.symm⟩

theorem samples_same_content (tileId : Nat) (tx ty : Int) (h0 : tileId ≠ 0) :
    FiniteHolds finiteSample tileId tx ty ↔ ChunkedHolds chunkedSample tileId tx ty := by
  rw [finiteHolds_iff_mem, chunkedHolds_iff_mem]
  simp [finiteSample, chunkedSample, plainLayer, List.enum, List.enumFrom]
  omega

/-- C4 (witness): the 3×2 layer `finiteSample` and its two-chunk form `chunkedSample`. -/
theorem chunked_matches_finite_witness :
    (finiteSample.chunks = [] ∧ chunkedSample.chunks ≠ [] ∧ 0 < finiteSample.size.x
      ∧ (∀ chunk ∈ chunkedSample.chunks, 0 < chunk.size.x ∧ chunk.WellShaped)
      ∧ chunkedSample.chunks.Pairwise Chunk.Disjoint
      ∧ ∀ (tileId : Nat) (tx ty : Int), tileId ≠ 0 →
          (FiniteHolds finiteSample tileId tx ty ↔ ChunkedHolds chunkedSample tileId tx ty))
    ∧ ∃ fcmds ccmds,
      renderTileLayer (loadTileTextures sampleLoader twoTilesets) 16 16 (mainCamera ⟨10, 0⟩)
          finiteSample = some fcmds
        ∧ renderTileLayer (loadTileTextures sampleLoader twoTilesets) 16 16
            (mainCamera ⟨10, 0⟩) chunkedSample = some ccmds
        ∧ (fcmds : Multiset DrawCommand) = (ccmds : Multiset DrawCommand) :=
  ⟨⟨rfl, by decide, by decide, by decide, by decide, samples_same_content⟩,
    chunked_matches_finite (loadTileTextures sampleLoader twoTilesets) 16 16
      (mainCamera ⟨10, 0⟩) finiteSample chunkedSample rfl (by decide) rfl rfl (by decide)
      (by decide) (by decide) samples_same_content⟩

/-! ## C5: composition order -/

theorem documentOrderLayers_append (loadTexture : String → Texture2D)
    (W tileWidth tileHeight : Int) (tileTextures : TextureMap) (camera : Camera2D)
    (xs ys : List Layer) :
    documentOrderLayers loadTexture W tileWidth tileHeight tileTextures camera (xs ++ ys)
      = andThen
          (documentOrderLayers loadTexture W tileWidth tileHeight tileTextures camera xs)
          (documentOrderLayers loadTexture W tileWidth tileHeight tileTextures camera ys) := by
  induction xs with
  | nil => simp [documentOrderLayers, andThen_nil_left]
  | cons x xs ih =>
    rw [List.cons_append, documentOrderLayers, documentOrderLayers, ih, andThen_assoc]

theorem documentOrderLayers_images (loadTexture : String → Texture2D)
    (W tileWidth tileHeight : Int) (tileTextures : TextureMap) (camera : Camera2D)
    (layers : List Layer) :
    documentOrderLayers loadTexture W tileWidth tileHeight tileTextures camera
        (layers.filter Layer.isImage)
      = renderImageLayers W camera (loadImageLayers loadTexture layers) := by
  induction layers with
  | nil => rfl
  | cons layer rest ih =>
    by_cases h : layer.type = LayerType.ImageLayer
    · have hb : layer.isImage = true := by simp [Layer.isImage, h]
      rw [List.filter_cons_of_pos hb]
      simp only [loadImageLayers, h, if_true, documentOrderLayers, renderImageLayers, ih]
      rfl
    · have hb : ¬ layer.isImage = true := by simp [Layer.isImage, h]
      rw [List.filter_cons_of_neg hb]
      simp only [loadImageLayers, h, if_false, ih]

theorem documentOrderLayers_others (loadTexture : String → Texture2D)
    (W tileWidth tileHeight : Int) (tileTextures : TextureMap) (camera : Camera2D)
    (layers : List Layer) :
    documentOrderLayers loadTexture W tileWidth tileHeight tileTextures camera
        (layers.filter (fun layer => !layer.isImage))
      = renderTileLayers tileTextures tileWidth tileHeight camera layers := by
  induction layers with
  | nil => rfl
  | cons layer rest ih =>
    by_cases h : layer.isImage = true
    · have hty : layer.type = LayerType.ImageLayer := by simpa [Layer.isImage] using h
      simp [List.filter_cons, h, hty, renderTileLayers, ih]
    · have hne : ¬ layer.type = LayerType.ImageLayer := by simpa [Layer.isImage] using h
      simp only [Bool.not_eq_true] at h
      cases hty : layer.type <;>
        simp [List.filter_cons, h, hty, documentOrderLayers, renderTileLayers, ih,
          andThen_nil_left]
      exact absurd hty hne

theorem loadMapObjects_append (xs ys : List Layer) :
    loadMapObjects (xs ++ ys) = loadMapObjects xs ++ loadMapObjects ys := by
  induction xs with
  | nil => rfl
  | cons x xs ih =>
    by_cases h : x.type = LayerType.ObjectGroup
    · simp [loadMapObjects, h, ih]
    · simp [loadMapObjects, h, ih]

theorem loadMapObjects_images (layers : List Layer) :
    loadMapObjects (layers.filter Layer.isImage) = [] := by
  induction layers with
  | nil => rfl
  | cons layer rest ih =>
    by_cases h : layer.isImage = true
    · have hty : layer.type = LayerType.ImageLayer := by simpa [Layer.isImage] using h
      simp [List.filter_cons, h, hty, loadMapObjects, ih]
    · simp only [Bool.not_eq_true] at h
      simp [List.filter_cons, h, ih]

theorem loadMapObjects_others (layers : List Layer) :
    loadMapObjects (layers.filter (fun layer => !layer.isImage)) = loadMapObjects layers := by
  induction layers with
  | nil => rfl
  | cons layer rest ih =>
    by_cases h : layer.isImage = true
    · have hty : layer.type = LayerType.ImageLayer := by simpa [Layer.isImage] using h
      simp [List.filter_cons, h, hty, loadMapObjects, ih]
    · simp only [Bool.not_eq_true] at h
      simp [List.filter_cons, h, loadMapObjects, ih]

/-- C5, as stated, fails: for a map that declares a tile layer before an image
layer, the frame draws the image layer first and the tile layer second, while
true document order is the reverse. -/
theorem tile_layer_drawn_after_later_image_layer :
    composeFrame sampleLoader screenWidth tileBeforeImageMap originCamera
        = some [DrawCommand.DrawTexture (sampleLoader "sky.png") 0 0 WHITE,
                DrawCommand.DrawTexture (sampleLoader "tiled_project/t1.png") 0 0 WHITE]
      ∧ documentOrderFrame sampleLoader screenWidth tileBeforeImageMap originCamera
        = some [DrawCommand.DrawTexture (sampleLoader "tiled_project/t1.png") 0 0 WHITE,
                DrawCommand.DrawTexture (sampleLoader "sky.png") 0 0 WHITE]
      ∧ sampleLoader "sky.png" ≠ sampleLoader "tiled_project/t1.png" := by
  have hp : fixImagePath "sky.png" = "sky.png" := by decide
  refine ⟨?_, ?_, ?_⟩
  · simp [composeFrame, drawFrame, tileBeforeImageMap, plainLayer, loadTileTextures,
      loadTilesets, loadTilesetTiles, loadImageLayers, loadMapObjects, renderImageLayers,
      renderImageLayer, renderTileLayers, renderTileLayer, drawLayerData, drawTile,
      TextureMap.set, TextureMap.empty, andThen, renderObjects, originCamera, hp]
  · simp [documentOrderFrame, documentOrderLayers, imageLayerInfo, tileBeforeImageMap,
      plainLayer, loadTileTextures,
      loadTilesets, loadTilesetTiles, loadMapObjects,
      renderImageLayer, renderTileLayer, drawLayerData, drawTile,
      TextureMap.set, TextureMap.empty, andThen, renderObjects, originCamera, hp]
  · decide

/-- C5 (amended). For every map and camera state the frame is the document-order
frame of the same map with its image layers moved in front of its other
layers: the image layers are drawn first, in declaration order, then the tile
layers, in declaration order, then the map objects.  A layer declared before
another one is drawn before it when both are of the same kind or when it is the
image layer of the two. -/
theorem frame_is_document_order_after_image_layers (loadTexture : String → Texture2D)
    (W : Int) (map : Map) (camera : Camera2D) :
    composeFrame loadTexture W map camera
      = documentOrderFrame loadTexture W { map with layers := imageLayersFirst map.layers }
          camera := by
  simp only [composeFrame, drawFrame, documentOrderFrame, imageLayersFirst,
    documentOrderLayers_append, documentOrderLayers_images, documentOrderLayers_others,
    loadMapObjects_append, loadMapObjects_images, loadMapObjects_others, List.nil_append,
    andThen_assoc, loadTileTextures]

/-! ## C6: parallax factor (1,1) -/

/-- C6, as stated, fails: with parallax factor (1,1), offset (0,0), camera target
`T = (1,0)` and screen-centre offset `O = (0,0)` the image layer is drawn at
(0,0), not at `T - O = (1,0)`. -/
theorem identity_layer_not_at_target :
    renderImageLayer screenWidth movedCamera identityImageLayer
        = some [DrawCommand.DrawTexture identityImageLayer.texture 0 0 WHITE]
      ∧ renderImageLayer screenWidth movedCamera identityImageLayer
        ≠ some [DrawCommand.DrawTexture identityImageLayer.texture
            (movedCamera.target.x - movedCamera.offset.x)
            (movedCamera.target.y - movedCamera.offset.y) WHITE] := by
  constructor <;> simp [renderImageLayer, movedCamera, identityImageLayer]

/-- C6 (amended). For every camera target `T` and screen-centre offset `O`, a
layer (image or tile, whatever its content) with parallax factor (1,1) and
offset (0,0) is drawn with screen offset `-O`, independent of `T`; the
screen offset `T - O` is that of a layer with parallax factor (0,0). -/
theorem identity_layer_offset :
    (∀ T O : Vector2, screenOffset ⟨0, 0⟩ ⟨1, 1⟩ T O = ⟨-O.x, -O.y⟩)
    ∧ (∀ T O : Vector2, screenOffset ⟨0, 0⟩ ⟨0, 0⟩ T O = ⟨T.x - O.x, T.y - O.y⟩)
    ∧ (∀ (screenWidth : Int) (camera : Camera2D) (imageLayer : ImageLayerInfo),
        renderImageLayer screenWidth camera
            { imageLayer with offset := ⟨0, 0⟩, parallaxFactor := ⟨1, 1⟩ }
          = translateAll ⟨-camera.offset.x, -camera.offset.y⟩
              (renderImageLayer screenWidth originCamera
                { imageLayer with offset := ⟨0, 0⟩, parallaxFactor := ⟨1, 1⟩ }))
    ∧ (∀ (tileTextures : TextureMap) (tileWidth tileHeight : Int) (camera : Camera2D)
        (layer : Layer),
        renderTileLayer tileTextures tileWidth tileHeight camera
            { layer with offset := ⟨0, 0⟩, parallax := ⟨1, 1⟩ }
          = translateAll ⟨-camera.offset.x, -camera.offset.y⟩
              (renderTileLayer tileTextures tileWidth tileHeight originCamera
                { layer with offset := ⟨0, 0⟩, parallax := ⟨1, 1⟩ })) := by
  have h1 : ∀ T O : Vector2, screenOffset ⟨0, 0⟩ ⟨1, 1⟩ T O = ⟨-O.x, -O.y⟩ := by
    intro T O; simp [screenOffset]
  refine ⟨h1, ?_, ?_, ?_⟩
  · intro T O; simp [screenOffset]
  · intro W camera imageLayer
    rw [renderImageLayer_translate]
    simp only [h1]
  · intro tileTextures tileWidth tileHeight camera layer
    rw [renderTileLayer_translate]
    simp only [h1]

/-! ## C7: image layers -/

theorem truncToInt_intCast (n : Int) : truncToInt (n : ℚ) = n := by
  unfold truncToInt
  split <;> simp

theorem renderObjects_append (O : Vector2) (xs ys : List MapObject) :
    renderObjects O (xs ++ ys) = renderObjects O xs ++ renderObjects O ys := by
  induction xs with
  | nil => rfl
  | cons x xs ih => simp [renderObjects, ih]

theorem renderObjects_map_toMapObject (O : Vector2) (objects : List Object) :
    renderObjects O (objects.map (toMapObject RED)) = objects.flatMap (objectCommands O) := by
  induction objects with
  | nil => rfl
  | cons object rest ih =>
    simp only [List.map_cons, renderObjects, ih, List.flatMap_cons]
    congr 1

theorem renderObjects_loadMapObjects (O : Vector2) (layers : List Layer) :
    renderObjects O (loadMapObjects layers) = (declaredObjects layers).flatMap (objectCommands O) := by
  induction layers with
  | nil => rfl
  | cons layer rest ih =>
    by_cases h : layer.type = LayerType.ObjectGroup
    · simp only [loadMapObjects, declaredObjects, h, if_true, renderObjects_append, ih,
        renderObjects_map_toMapObject, List.flatMap_append]
    · simp only [loadMapObjects, declaredObjects, h, if_false, ih]

theorem screenCalls_andThen (camera : Camera2D) (a b : Option (List DrawCommand)) :
    screenCalls camera (andThen a b) = andThen (screenCalls camera a) (screenCalls camera b) := by
  cases a <;> cases b <;> simp [screenCalls, andThen]

theorem objectCommands_onScreen (camera : Camera2D) (object : Object) :
    (objectCommands camera.offset object).map (fun cmd => cmd.passed.onScreen camera)
      = screenObjectCommands camera object := by
  simp only [objectCommands, screenObjectCommands, List.map_cons, List.map_nil,
    DrawCommand.passed, DrawCommand.onScreen]
  congr 3 <;> ring_nf

theorem screenObjectCommands_shift (O T T' : Vector2) (object : Object) :
    screenObjectCommands { offset := O, target := T' } object
      = (screenObjectCommands { offset := O, target := T } object).map
          (DrawCommand.translate ⟨-(T'.x - T.x), -(T'.y - T.y)⟩) := by
  simp only [screenObjectCommands, List.map_cons, List.map_nil, DrawCommand.translate]
  congr 3 <;> ring_nf

theorem screenCalls_objects (camera : Camera2D) (layers : List Layer) :
    screenCalls camera (some (renderObjects camera.offset (loadMapObjects layers)))
      = some ((declaredObjects layers).flatMap (screenObjectCommands camera)) := by
  simp only [screenCalls, Option.map_some', renderObjects_loadMapObjects, List.map_flatMap,
    objectCommands_onScreen]

/-- C8. Object rendering is parallax-free: every object is extracted with world
rectangle (position.x, position.y, size.x, size.y) whatever the offset and
parallax factor of its layer; what a frame puts on screen ends with the draws
of the extracted objects, seen through the camera of `BeginMode2D`: for each
object the rectangle at `position - T` with the object's size, its outline and
its label; and for every two camera targets `T` and `T'` (same screen-centre
offset `O`) the on-screen commands of the objects at `T'` are those at `T` moved
by `-(T' - T)`, width and height unchanged. -/
theorem objects_move_with_camera :
    (∀ (layers : List Layer) (offset parallax : Vector2),
        loadMapObjects
            (layers.map fun layer => { layer with offset := offset, parallax := parallax })
          = (declaredObjects layers).map fun object =>
              { name := object.name, type := object.type,
                rect := ⟨object.position.x, object.position.y, object.size.x, object.size.y⟩,
                color := RED })
    ∧ (∀ (loadTexture : String → Texture2D) (W : Int) (map : Map) (camera : Camera2D),
        screenFrame loadTexture W map camera
          = andThen
              (screenCalls camera
                (andThen
                  (renderImageLayers W camera (loadImageLayers loadTexture map.layers))
                  (renderTileLayers (loadTileTextures loadTexture map) map.tileSize.x
                    map.tileSize.y camera map.layers)))
              (screenCalls camera
                (some (renderObjects camera.offset (loadMapObjects map.layers)))))
    ∧ (∀ (layers : List Layer) (camera : Camera2D),
        screenCalls camera (some (renderObjects camera.offset (loadMapObjects layers)))
          = some ((declaredObjects layers).flatMap (screenObjectCommands camera)))
    ∧ (∀ (layers : List Layer) (O T T' : Vector2),
        screenCalls { offset := O, target := T' }
            (some (renderObjects O (loadMapObjects layers)))
          = translateAll ⟨-(T'.x - T.x), -(T'.y - T.y)⟩
              (screenCalls { offset := O, target := T }
                (some (renderObjects O (loadMapObjects layers))))) := by
  refine ⟨?_, ?_, ?_, ?_⟩
  · intro layers offset parallax
    induction layers with
    | nil => rfl
    | cons layer rest ih =>
      by_cases h : layer.type = LayerType.ObjectGroup
      · simp only [List.map_cons, loadMapObjects, declaredObjects, h, if_true, ih,
          List.map_append]
        rfl
      · simp only [List.map_cons, loadMapObjects, declaredObjects, h, if_false, ih]
  · intro loadTexture W map camera
    simp only [screenFrame, composeFrame, drawFrame, ← andThen_assoc, screenCalls_andThen]
  · intro layers camera
    exact screenCalls_objects camera layers
  · intro layers O T T'
    have h1 := screenCalls_objects { offset := O, target := T' } layers
    have h2 := screenCalls_objects { offset := O, target := T } layers
    simp only at h1 h2
    rw [h1, h2]
    simp only [translateAll, Option.map_some', List.map_flatMap]
    congr 2
    funext object
    exact screenObjectCommands_shift O T T' object

/-- C8 (example): the object of `objectMap`, at (10,20) with size 30×40, in the window
of `main`: at camera target (0,0) its rectangle is on screen at (10,20) and its
label at (15,25); at camera target (5,0) they are at (5,20) and (10,25). -/
theorem object_on_screen_example :
    screenFrame sampleLoader screenWidth objectMap (mainCamera ⟨0, 0⟩)
        = some [DrawCommand.DrawRectangleRec ⟨10, 20, 30, 40⟩ { RED with a := 100 },
                DrawCommand.DrawRectangleLinesEx ⟨10, 20, 30, 40⟩ 2 RED,
                DrawCommand.DrawText "spawn" 15 25 20 WHITE]
      ∧ screenFrame sampleLoader screenWidth objectMap (mainCamera ⟨5, 0⟩)
        = some [DrawCommand.DrawRectangleRec ⟨5, 20, 30, 40⟩ { RED with a := 100 },
                DrawCommand.DrawRectangleLinesEx ⟨5, 20, 30, 40⟩ 2 RED,
                DrawCommand.DrawText "spawn" 10 25 20 WHITE] := by
  have tx : truncToInt (10 - 1440 / 2 + 5) = -705 := by
    have h : (10 - 1440 / 2 + 5 : ℚ) = ((-705 : Int) : ℚ) := by norm_num
    rw [h, truncToInt_intCast]
  have ty : truncToInt (20 - 960 / 2 + 5) = -455 := by
    have h : (20 - 960 / 2 + 5 : ℚ) = ((-455 : Int) : ℚ) := by norm_num
    rw [h, truncToInt_intCast]
  constructor
  · simp [screenFrame, screenCalls, composeFrame, drawFrame, objectMap, plainLayer,
      loadImageLayers, loadMapObjects, toMapObject, renderImageLayers, renderTileLayers,
      renderObjects, renderObject, andThen, DrawCommand.passed, DrawCommand.onScreen,
      DrawCommand.translate, mainCamera, screenWidth, screenHeight, tx, ty]
    norm_num
  · simp [screenFrame, screenCalls, composeFrame, drawFrame, objectMap, plainLayer,
      loadImageLayers, loadMapObjects, toMapObject, renderImageLayers, renderTileLayers,
      renderObjects, renderObject, andThen, DrawCommand.passed, DrawCommand.onScreen,
      DrawCommand.translate, mainCamera, screenWidth, screenHeight, tx, ty]
    norm_num

/-! ## C9: the concrete 2×2 scenario -/

/-- C9, as stated, fails: in the scenario the frame holds no texture draw at
(16,0) at all; id 2 sits at index 2 of a row-major array of width 2, that is at
column 0 of row 1. -/
theorem scenario_no_draw_at_16_0 :
    ∃ cmds, composeFrame sampleLoader screenWidth scenarioMap originCamera = some cmds
      ∧ ∀ texture tint, DrawCommand.DrawTexture texture 16 0 tint ∉ cmds := by
  refine ⟨[DrawCommand.DrawTexture (sampleLoader "tiled_project/t1.png") 0 0 WHITE,
    DrawCommand.DrawTexture (sampleLoader "tiled_project/t2.png") 0 16 WHITE], ?_, ?_⟩
  · simp [composeFrame, drawFrame, scenarioMap, plainLayer, loadTileTextures, loadTilesets,
      loadTilesetTiles, loadImageLayers, loadMapObjects, renderImageLayers, renderTileLayers,
      renderTileLayer, drawLayerData, drawTile, TextureMap.set, TextureMap.empty, andThen,
      renderObjects, originCamera]
  · intro texture tint h
    simp at h

/-- C9 (amended). In the scenario (2×2 finite layer `[1,0,2,0]`, 16×16 tiles, one
tileset at first gid 1 holding ids 1 and 2, layer offset (0,0), parallax (1,1),
camera target (0,0), screen-centre offset (0,0)) the frame is exactly two
texture draws, whatever the loader and the window width: id 1 at (0,0), then
id 2 at (0,16). -/
theorem scenario_two_draws (loadTexture : String → Texture2D) (W : Int) :
    composeFrame loadTexture W scenarioMap originCamera
      = some [DrawCommand.DrawTexture (loadTexture "tiled_project/t1.png") 0 0 WHITE,
              DrawCommand.DrawTexture (loadTexture "tiled_project/t2.png") 0 16 WHITE] := by
  simp [composeFrame, drawFrame, scenarioMap, plainLayer, loadTileTextures, loadTilesets,
    loadTilesetTiles, loadImageLayers, loadMapObjects, renderImageLayers, renderTileLayers,
    renderTileLayer, drawLayerData, drawTile, TextureMap.set, TextureMap.empty, andThen,
    renderObjects, originCamera]

/-! ## C10: a repeating image layer whose image failed to load -/

/-- C10 (divergence). For a map with a repeating image layer whose image failed to
load (texture width 0) and a tile layer, the frame divides `screenWidth` by zero
and no frame is produced, at any camera target; the same map without the image
layer gives the draw of its tile layer. -/
theorem failed_repeating_layer_divides_by_zero (target : Vector2) :
    composeFrame missingLoader screenWidth repeatingImageMap (mainCamera target) = none
      ∧ composeFrame missingLoader screenWidth
          { repeatingImageMap with layers := repeatingImageMap.layers.tail } (mainCamera target)
        = some [DrawCommand.DrawTexture (sampleLoader "tiled_project/t1.png") (-720) (-480)
            WHITE] := by
  have hmiss : missingLoader "missing.png" = ⟨0, 0, 0⟩ := by decide
  have hp : fixImagePath "missing.png" = "missing.png" := by decide
  have ht : missingLoader "tiled_project/t1.png" = sampleLoader "tiled_project/t1.png" := by
    decide
  have hc : "tiled_project/" ++ "t1.png" = "tiled_project/t1.png" := by decide
  constructor
  · simp [composeFrame, drawFrame, repeatingImageMap, plainLayer, loadImageLayers,
      renderImageLayers, renderImageLayer, hmiss, hp, andThen]
  · simp [composeFrame, drawFrame, repeatingImageMap, plainLayer, loadImageLayers,
      loadTileTextures, loadTilesets, loadTilesetTiles, loadMapObjects, renderImageLayers,
      renderTileLayers, renderTileLayer, drawLayerData, drawTile, TextureMap.set,
      TextureMap.empty, renderObjects, andThen, mainCamera, screenWidth, screenHeight, hc, ht]
    norm_num

end LazyJumper
